import Mathlib

/-!
# MightyBoard firmware: the interface board's screen stack and button router

A shallow embedding of `firmware/src/MightyBoard/shared/InterfaceBoard.cc`.

* A `Screen*` is a handle (`Screen`); the calls the controller makes on screens
  and on its collaborators are recorded, in order, in the `trace` field.
* Screen callbacks only answer queries and receive notifications: they do not
  call back into the controller.
* `screenStack` is the fixed array; a read or write outside it has no defined
  result and the operation yields `none`.
* `SCREEN_STACK_DEPTH`, `ButtonArray::RESET` and `ButtonArray::EGG` come from
  headers that are not part of the sources at hand and are parameters
  (`Config`).
* One `doUpdate` call is `monitor` (the `switch` on the host state) followed by
  `router` (the button handling and the redraw); what the call observes of its
  collaborators is a `TickEnv`.
-/

namespace MightyBoard

/-- A `Screen*`: the address of a screen object. -/
abbrev Screen := Nat

/-- The numeric value of a `ButtonArray::ButtonName`. -/
abbrev ButtonName := Nat

/-- Values of `host::getHostState()` that `doUpdate` distinguishes; every other
value takes the `default:` branch. -/
inductive HostState where
  | HOST_STATE_BUILDING_ONBOARD
  | HOST_STATE_BUILDING
  | HOST_STATE_BUILDING_FROM_SD
  | HOST_STATE_HEAT_SHUTDOWN
  | other (code : Nat)
  deriving DecidableEq, Repr

/-- Calls made by the controller on screens and collaborators. -/
inductive Event where
  | reset (s : Screen)
  | update (s : Screen) (forceRedraw : Bool)
  | pop (s : Screen)
  | notifyButtonPressed (s : Screen) (button : ButtonName)
  | setBuildPercentage (s : Screen) (percent : Nat)
  | stopBuild
  | resetUserInputTimeout
  | getButton
  | clearButtonPress
  | timeoutStart (duration : Nat)
  | timeoutClear
  deriving DecidableEq, Repr

/-- Modelled from the spec: the `Timeout` class behind `button_timeout`
(`Timeout.hh` is not among the sources). A single-shot timer: armed with an
interval, it elapses once the interval has passed, and `clear` disarms it. -/
structure Timeout where
  active : Bool
  elapsed : Bool
  start_stamp_micros : Nat
  duration_micros : Nat
  deriving DecidableEq, Repr

/-- Modelled from the spec: `Timeout::start`, arming the timer at time `now`. -/
def Timeout.start (duration_micros now : Nat) (_t : Timeout) : Timeout :=
  { active := true, elapsed := false, start_stamp_micros := now,
    duration_micros := duration_micros }

/-- Modelled from the spec: `Timeout::hasElapsed`, polled at time `now`; an armed
timer whose interval has passed becomes elapsed. -/
def Timeout.hasElapsed (now : Nat) (t : Timeout) : Timeout × Bool :=
  if t.active && !t.elapsed && decide (t.duration_micros ≤ now - t.start_stamp_micros) then
    ({ t with active := false, elapsed := true }, true)
  else (t, t.elapsed)

/-- Modelled from the spec: `Timeout::clear`, disarming the timer. -/
def Timeout.clear (t : Timeout) : Timeout :=
  { t with active := false, elapsed := false }

/-- Constants from headers outside the sources at hand. -/
structure Config where
  SCREEN_STACK_DEPTH : Nat
  RESET : ButtonName
  EGG : ButtonName

/-- The controller object together with the file-level globals `button_timeout`
and `onboard_build`, and the record of calls made so far. -/
structure InterfaceBoard where
  screenStack : List Screen
  screenIndex : Int
  waitingMask : Nat
  building : Bool
  onboard_build : Bool
  screen_locked : Bool
  buildPercentage : Nat
  button_timeout : Timeout
  mainScreen : Screen
  buildScreen : Screen
  messageScreen : Screen
  snake : Screen
  trace : List Event
  deriving DecidableEq, Repr

/-- What one `doUpdate` call observes of the outside world. -/
structure TickEnv where
  /-- The value of `host::getHostState()`. -/
  hostState : HostState
  /-- The value of `command::isWaiting()`. -/
  commandWaiting : Bool
  /-- The button `buttons.getButton(button)` delivers, if one is pending. -/
  pending : Option ButtonName
  /-- The microsecond clock read by `button_timeout`. -/
  now : Nat
  /-- The answer of `screenWaiting()` of each screen. -/
  screenWaiting : Screen → Bool
  /-- The answer of `isCancelScreen()` of each screen. -/
  isCancelScreen : Screen → Bool
  /-- The answer of `continuousButtons()` of each screen. -/
  continuousButtons : Screen → Bool

/-- Reading `screenStack[i]`: defined only inside the array. -/
def stackRead (screenStack : List Screen) (i : Int) : Option Screen :=
  if i < 0 then none else screenStack[i.toNat]?

/-- The assignment `screenStack[i] = v`: defined only inside the array. -/
def stackWrite (screenStack : List Screen) (i : Int) (v : Screen) : Option (List Screen) :=
  if 0 ≤ i ∧ i.toNat < screenStack.length then some (screenStack.set i.toNat v) else none

/-- Record a call. -/
def emit (e : Event) (b : InterfaceBoard) : InterfaceBoard :=
  { b with trace := b.trace ++ [e] }

/-- `InterfaceBoard::pushNoUpdate`. -/
def pushNoUpdate (cfg : Config) (newScreen : Screen) (b : InterfaceBoard) :
    Option InterfaceBoard := do
  let b1 ← if b.screenIndex < (cfg.SCREEN_STACK_DEPTH : Int) - 1 then
      (stackWrite b.screenStack (b.screenIndex + 1) newScreen).map fun stack =>
        { b with screenIndex := b.screenIndex + 1, screenStack := stack }
    else some b
  let top ← stackRead b1.screenStack b1.screenIndex
  some (emit (.reset top) b1)

/-- `InterfaceBoard::pushScreen`. -/
def pushScreen (cfg : Config) (newScreen : Screen) (b : InterfaceBoard) :
    Option InterfaceBoard := do
  let b1 ← if b.screenIndex < (cfg.SCREEN_STACK_DEPTH : Int) - 1 then
      (stackWrite b.screenStack (b.screenIndex + 1) newScreen).map fun stack =>
        { b with screenIndex := b.screenIndex + 1, screenStack := stack }
    else some b
  let top ← stackRead b1.screenStack b1.screenIndex
  some (emit (.update top true) (emit (.reset top) b1))

/-- `InterfaceBoard::init` (the display, LED and button-hardware set-up calls
touch no controller state). -/
def init (cfg : Config) (b : InterfaceBoard) : Option InterfaceBoard := do
  let b1 := { b with building := false, screenIndex := -1, waitingMask := 0 }
  let b2 ← pushScreen cfg b1.mainScreen b1
  some { b2 with screen_locked := false }

/-- `InterfaceBoard::errorMessage` (the message text goes to the message screen). -/
def errorMessage (cfg : Config) (b : InterfaceBoard) : Option InterfaceBoard :=
  pushScreen cfg b.messageScreen b

/-- `InterfaceBoard::setBuildPercentage`, on a `uint8_t` argument. -/
def setBuildPercentage (percent : Nat) (b : InterfaceBoard) : InterfaceBoard :=
  if percent % 256 < 100 then { b with buildPercentage := percent % 256 } else b

/-- `InterfaceBoard::popScreen`. -/
def popScreen (b : InterfaceBoard) : Option InterfaceBoard := do
  let top ← stackRead b.screenStack b.screenIndex
  let b1 := emit (.pop top) b
  let b2 := if b1.screenIndex > 0 then { b1 with screenIndex := b1.screenIndex - 1 } else b1
  let top2 ← stackRead b2.screenStack b2.screenIndex
  some (emit (.update top2 true) b2)

/-- `InterfaceBoard::pop2Screens`. -/
def pop2Screens (b : InterfaceBoard) : Option InterfaceBoard := do
  let b1 := if b.screenIndex > 1 then { b with screenIndex := b.screenIndex - 2 } else b
  let top ← stackRead b1.screenStack b1.screenIndex
  some (emit (.update top true) b1)

/-- `InterfaceBoard::waitForButton`, on a `uint8_t` argument. -/
def waitForButton (button_mask : Nat) (b : InterfaceBoard) : InterfaceBoard :=
  { b with waitingMask := button_mask % 256 }

/-- `InterfaceBoard::buttonPushed`. -/
def buttonPushed (b : InterfaceBoard) : Bool :=
  b.waitingMask == 0

/-- The loops `while(screenIndex > floor){ popScreen(); }` of `doUpdate`. The
first argument bounds the number of iterations; a loop still running when it is
used up yields `none`. -/
def popWhileAbove (floor : Int) : Nat → InterfaceBoard → Option InterfaceBoard
  | 0, b => if b.screenIndex > floor then none else some b
  | fuel + 1, b =>
    if b.screenIndex > floor then (popScreen b).bind (popWhileAbove floor fuel) else some b

/-- The push-behind block of `doUpdate`: move the current screen up one slot
when there is room, then store the build screen in the slot below the index and
reset it. -/
def pushBehind (cfg : Config) (b : InterfaceBoard) : Option InterfaceBoard := do
  let b1 ← if b.screenIndex < (cfg.SCREEN_STACK_DEPTH : Int) - 1 then do
      let b2 := { b with screenIndex := b.screenIndex + 1 }
      let below ← stackRead b2.screenStack (b2.screenIndex - 1)
      let stack ← stackWrite b2.screenStack b2.screenIndex below
      some { b2 with screenStack := stack }
    else some b
  let stack ← stackWrite b1.screenStack (b1.screenIndex - 1) b1.buildScreen
  some (emit (.reset b1.buildScreen) { b1 with screenStack := stack })

/-- The body shared by the three building cases of the `switch` in `doUpdate`
(`if (!building) { ... }`). -/
def buildStart (cfg : Config) (env : TickEnv) (b : InterfaceBoard) : Option InterfaceBoard :=
  if !b.building then do
    let top ← stackRead b.screenStack b.screenIndex
    let b1 ← if env.screenWaiting top || env.commandWaiting then pushBehind cfg b
      else pushScreen cfg b.buildScreen b
    some { b1 with building := true }
  else some b

/-- The `default:` case of the `switch` in `doUpdate`. The unwind loops need at
most `screenIndex` iterations. -/
def buildEnd (env : TickEnv) (b : InterfaceBoard) : Option InterfaceBoard :=
  if b.building then do
    let top ← stackRead b.screenStack b.screenIndex
    if !env.screenWaiting top then do
      let b1 ← if b.onboard_build then popWhileAbove 1 b.screenIndex.toNat b
        else popWhileAbove 0 b.screenIndex.toNat b
      some { b1 with building := false }
    else some b
  else some b

/-- The build-state monitor: the `switch` statement of `doUpdate`. -/
def monitor (cfg : Config) (env : TickEnv) (b : InterfaceBoard) : Option InterfaceBoard :=
  match env.hostState with
  | .HOST_STATE_BUILDING_ONBOARD => buildStart cfg env { b with onboard_build := true }
  | .HOST_STATE_BUILDING => buildStart cfg env b
  | .HOST_STATE_BUILDING_FROM_SD => buildStart cfg env b
  | .HOST_STATE_HEAT_SHUTDOWN => some b
  | .other _ => buildEnd env b

/-- The last two branches of the button `if` chain of `doUpdate`: the `EGG`
branch and the forwarding branch. -/
def forwardButton (cfg : Config) (env : TickEnv) (button : ButtonName) (b : InterfaceBoard) :
    Option InterfaceBoard :=
  if button = cfg.EGG then pushScreen cfg b.snake b
  else do
    let top ← stackRead b.screenStack b.screenIndex
    let b1 := emit (.notifyButtonPressed top button) b
    if env.continuousButtons top then
      some (emit (.timeoutStart 100000)
        { b1 with button_timeout := b1.button_timeout.start 100000 env.now })
    else some b1

/-- The button `if` chain of `doUpdate` below the `RESET` test. -/
def dispatchButton (cfg : Config) (env : TickEnv) (button : ButtonName) (b : InterfaceBoard) :
    Option InterfaceBoard :=
  if ((1 <<< button) &&& b.waitingMask) ≠ 0 then do
    let top ← stackRead b.screenStack b.screenIndex
    if !env.isCancelScreen top then some { b with waitingMask := 0 }
    else forwardButton cfg env button b
  else forwardButton cfg env button b

/-- The repeat-timer poll of `doUpdate`:
`if(button_timeout.hasElapsed()){ buttons.clearButtonPress(); button_timeout.clear(); }`. -/
def pollRepeatTimer (env : TickEnv) (b : InterfaceBoard) : InterfaceBoard :=
  let polled := b.button_timeout.hasElapsed env.now
  let b1 := { b with button_timeout := polled.1 }
  if polled.2 then
    emit .timeoutClear
      { emit .clearButtonPress b1 with button_timeout := b1.button_timeout.clear }
  else b1

/-- The tail of an unlocked tick: the repeat-timer poll, then
`setBuildPercentage` and `update` on the current screen. -/
def finishTick (env : TickEnv) (b : InterfaceBoard) : Option InterfaceBoard := do
  let b1 := pollRepeatTimer env b
  let top ← stackRead b1.screenStack b1.screenIndex
  some (emit (.update top false) (emit (.setBuildPercentage top b1.buildPercentage) b1))

/-- The button router: the part of `doUpdate` below the `switch`. -/
def router (cfg : Config) (env : TickEnv) (b : InterfaceBoard) : Option InterfaceBoard :=
  if !b.screen_locked then
    let b0 := emit .getButton b
    match env.pending with
    | some button =>
      if button = cfg.RESET then some (emit .stopBuild b0)
      else do
        let b1 ← dispatchButton cfg env button b0
        finishTick env (emit .resetUserInputTimeout b1)
    | none => finishTick env b0
  else some b

/-- `InterfaceBoard::doUpdate`: one tick. -/
def doUpdate (cfg : Config) (env : TickEnv) (b : InterfaceBoard) : Option InterfaceBoard :=
  (monitor cfg env b).bind (router cfg env)

/-- The operations a caller can apply to the controller. -/
inductive Op where
  | pushScreen (s : Screen)
  | pushNoUpdate (s : Screen)
  | popScreen
  | pop2Screens
  | doUpdate (env : TickEnv)

/-- Apply one operation. -/
def step (cfg : Config) : Op → InterfaceBoard → Option InterfaceBoard
  | .pushScreen s, b => pushScreen cfg s b
  | .pushNoUpdate s, b => pushNoUpdate cfg s b
  | .popScreen, b => popScreen b
  | .pop2Screens, b => pop2Screens b
  | .doUpdate env, b => doUpdate cfg env b

/-- Apply a sequence of operations, first to last. -/
def run (cfg : Config) : List Op → InterfaceBoard → Option InterfaceBoard
  | [], b => some b
  | op :: ops, b => (step cfg op b).bind (run cfg ops)

/-- The screen on top of the stack. -/
def current (b : InterfaceBoard) : Option Screen :=
  stackRead b.screenStack b.screenIndex

/-- A controller object whose stack array has `SCREEN_STACK_DEPTH` slots and
whose index points into it. -/
def WellFormed (cfg : Config) (b : InterfaceBoard) : Prop :=
  b.screenStack.length = cfg.SCREEN_STACK_DEPTH ∧ 0 ≤ b.screenIndex ∧
    b.screenIndex < (cfg.SCREEN_STACK_DEPTH : Int)

instance (cfg : Config) (b : InterfaceBoard) : Decidable (WellFormed cfg b) := by
  unfold WellFormed
  infer_instance

/-- A state reached from `init()` by a sequence of operations. -/
def Reachable (cfg : Config) (b : InterfaceBoard) : Prop :=
  ∃ (b0 : InterfaceBoard) (ops : List Op),
    b0.screenStack.length = cfg.SCREEN_STACK_DEPTH ∧
      (init cfg b0).bind (run cfg ops) = some b

/-- A sample configuration: four slots, `RESET = 2`, `EGG = 3`. -/
def cfg4 : Config := { SCREEN_STACK_DEPTH := 4, RESET := 2, EGG := 3 }

/-- A sample configuration with the smallest stack the build monitor can use. -/
def cfg2 : Config := { SCREEN_STACK_DEPTH := 2, RESET := 2, EGG := 3 }

/-- A sample controller object before `init()`: main screen 10, build screen 20,
message screen 30, diagnostic screen 40. -/
def board0 (depth : Nat) : InterfaceBoard :=
  { screenStack := List.replicate depth 0, screenIndex := 0, waitingMask := 0,
    building := false, onboard_build := false, screen_locked := false,
    buildPercentage := 101,
    button_timeout := { active := false, elapsed := false, start_stamp_micros := 0,
                        duration_micros := 0 },
    mainScreen := 10, buildScreen := 20, messageScreen := 30, snake := 40, trace := [] }

/-- A sample tick: nothing pending, no screen waiting. -/
def quietEnv (h : HostState) : TickEnv :=
  { hostState := h, commandWaiting := false, pending := none, now := 0,
    screenWaiting := fun _ => false, isCancelScreen := fun _ => false,
    continuousButtons := fun _ => false }

/-! ## Relations used to state what the operations preserve -/

/-- Fields that neither the stack operations nor the build monitor touch. -/
def Frame (b b' : InterfaceBoard) : Prop :=
  b'.waitingMask = b.waitingMask ∧ b'.screen_locked = b.screen_locked ∧
  b'.buildPercentage = b.buildPercentage ∧ b'.button_timeout = b.button_timeout ∧
  b'.mainScreen = b.mainScreen ∧ b'.buildScreen = b.buildScreen ∧
  b'.messageScreen = b.messageScreen ∧ b'.snake = b.snake

/-- The calls a stack operation makes: `reset`, forced `update` and `pop`. -/
def Event.isStackCall : Event → Bool
  | .reset _ => true
  | .update _ true => true
  | .pop _ => true
  | _ => false

/-- The trace grew by stack calls only. -/
def TraceExt (b b' : InterfaceBoard) : Prop :=
  ∃ evs : List Event, b'.trace = b.trace ++ evs ∧ ∀ e ∈ evs, e.isStackCall = true

/-- What every stack operation guarantees on a well-formed controller. -/
def StackStep (cfg : Config) (b b' : InterfaceBoard) : Prop :=
  WellFormed cfg b' ∧ Frame b b' ∧ b'.building = b.building ∧
    b'.onboard_build = b.onboard_build ∧
    stackRead b'.screenStack 0 = stackRead b.screenStack 0 ∧ TraceExt b b'

/-- What the build monitor guarantees on a well-formed controller. -/
def MonitorStep (cfg : Config) (b m : InterfaceBoard) : Prop :=
  WellFormed cfg m ∧ Frame b m ∧ TraceExt b m

/-- Whether a tick takes the push-behind branch of the build monitor. -/
def takesPushBehind (env : TickEnv) (b : InterfaceBoard) : Bool :=
  match env.hostState with
  | .HOST_STATE_HEAT_SHUTDOWN => false
  | .other _ => false
  | _ =>
    !b.building && match current b with
      | some top => env.screenWaiting top || env.commandWaiting
      | none => false

/-- The calls the repeat-timer poll makes for a timer in state `t`. -/
def pollEvents (env : TickEnv) (t : Timeout) : List Event :=
  if (t.hasElapsed env.now).2 then [.clearButtonPress, .timeoutClear] else []

/-- The state of the repeat timer after the poll. -/
def pollTimer (env : TickEnv) (t : Timeout) : Timeout :=
  if (t.hasElapsed env.now).2 then (t.hasElapsed env.now).1.clear
  else (t.hasElapsed env.now).1

/-- What the button router guarantees on a well-formed controller. -/
def RouterStep (cfg : Config) (b b' : InterfaceBoard) : Prop :=
  WellFormed cfg b' ∧ stackRead b'.screenStack 0 = stackRead b.screenStack 0 ∧
    b'.mainScreen = b.mainScreen ∧ (b'.waitingMask = b.waitingMask ∨ b'.waitingMask = 0)

/-! ## Run guards, iteration and sample data for the claims -/

/-- A sample tick starting a build while the command queue is waiting. -/
def behindEnv : TickEnv :=
  { quietEnv .HOST_STATE_BUILDING with commandWaiting := true }

/-- Whether an operation applied in state `b` is not a tick that inserts the build
screen behind a current screen which sits at index 0 or on a full stack. -/
def rootSafe (cfg : Config) : Op → InterfaceBoard → Bool
  | .doUpdate env, b =>
    !takesPushBehind env b ||
      (decide (1 ≤ b.screenIndex) && decide (b.screenIndex < (cfg.SCREEN_STACK_DEPTH : Int) - 1))
  | _, _ => true

/-- Whether every operation of a run from `b` is `rootSafe` in the state it is
applied to. -/
def rootSafeRun (cfg : Config) : List Op → InterfaceBoard → Bool
  | [], _ => true
  | op :: ops, b =>
    rootSafe cfg op b &&
      match step cfg op b with
      | some b' => rootSafeRun cfg ops b'
      | none => true

/-- The state `init()` produces from `board0 4`. -/
def board1 : InterfaceBoard :=
  { board0 4 with screenStack := [10, 0, 0, 0], trace := [.reset 10, .update 10 true] }

/-- A sample tick starting a build while the current screen is waiting. -/
def waitingEnv : TickEnv :=
  { quietEnv .HOST_STATE_BUILDING_ONBOARD with screenWaiting := fun _ => true }

/-- A sample full stack over four slots: screens 10, 5, 6, 7. -/
def fullBoard : InterfaceBoard :=
  { board0 4 with screenStack := [10, 5, 6, 7], screenIndex := 3 }

/-- Apply an operation `n` times in a row. -/
def repeatOp (f : InterfaceBoard → Option InterfaceBoard) :
    Nat → InterfaceBoard → Option InterfaceBoard
  | 0, b => some b
  | n + 1, b => (f b).bind (repeatOp f n)

/-- A board with a waiting message screen (30) above the main screen. -/
def messageBoard : InterfaceBoard :=
  { board0 4 with screenStack := [10, 30, 0, 0], screenIndex := 1 }

/-- Whether a call is `notifyButtonPressed`. -/
def Event.isNotify : Event → Bool
  | .notifyButtonPressed _ _ => true
  | _ => false

/-- A board at the root waiting for button 0 (`waitForButton(1)` after `init()`). -/
def gatedBoard : InterfaceBoard := waitForButton 1 board1

/-- A sample tick delivering button `k` with no build running. -/
def pressEnv (k : ButtonName) : TickEnv :=
  { quietEnv (.other 0) with pending := some k }

/-- A cancel screen: every screen answers `isCancelScreen()` with true, and
wants continuous button presses. -/
def cancelEnv (k : ButtonName) : TickEnv :=
  { pressEnv k with isCancelScreen := fun _ => true, continuousButtons := fun _ => true }

/-- The calls the button `if` chain can make: those of `pushScreen`,
`notifyButtonPressed` and the start of the repeat timer. -/
def Event.isDispatchCall : Event → Bool
  | .notifyButtonPressed _ _ => true
  | .timeoutStart _ => true
  | e => e.isStackCall

/-- Whether a call is `setBuildPercentage`. -/
def Event.isSetBuildPercentage : Event → Bool
  | .setBuildPercentage _ _ => true
  | _ => false

/-- The state after `init()` with the screen lock set. -/
def lockedBoard : InterfaceBoard := { board1 with screen_locked := true }

/-- A board at the end of an onboard build: build screen 20 above the utilities
menu 5, two more screens above it. -/
def builtBoard : InterfaceBoard :=
  { board0 4 with screenStack := [10, 5, 20, 7], screenIndex := 3, building := true,
                  onboard_build := true }

/-- A controller in an arbitrary earlier state: locked, mid-build, waiting for a
button, with screens left in the array. -/
def staleBoard : InterfaceBoard :=
  { board0 4 with screenStack := [7, 8, 9, 6], screenIndex := 2, waitingMask := 5,
                  building := true, screen_locked := true }

/-- The repeat timer as armed at time `since` with the 100000 microsecond
interval (`armed = true`), or disarmed after it (`armed = false`). -/
def repeatTimer (armed : Bool) (since : Nat) : Timeout :=
  { active := armed, elapsed := false, start_stamp_micros := since,
    duration_micros := 100000 }

/-- Whether a tick of an unlocked controller polls the repeat timer (its pending
button is not `RESET`) at a time when the interval started at `since` has
passed. -/
def elapsedPoll (cfg : Config) (since : Nat) (env : TickEnv) : Bool :=
  decide (env.pending ≠ some cfg.RESET) && decide (100000 ≤ env.now - since)

/-- Whether an operation is a tick that is an `elapsedPoll`. -/
def elapsedPollOp (cfg : Config) (since : Nat) : Op → Bool
  | .doUpdate env => elapsedPoll cfg since env
  | _ => false

/-- Whether a call starts the repeat timer. -/
def Event.isTimeoutStart : Event → Bool
  | .timeoutStart _ => true
  | _ => false

/-- Whether no operation of a run from `b` starts the repeat timer: none makes a
`button_timeout.start` call. -/
def noRearmRun (cfg : Config) : List Op → InterfaceBoard → Bool
  | [], _ => true
  | op :: ops, b =>
    match step cfg op b with
    | some b' =>
      !(b'.trace.drop b.trace.length).any Event.isTimeoutStart && noRearmRun cfg ops b'
    | none => true

/-- A sample tick at time 1000 delivering button 0 to a cancel screen that wants
continuous presses. -/
def holdEnv : TickEnv := { cancelEnv 0 with now := 1000 }

/-- A sample tick at time `now` with nothing pending and no build running. -/
def idleEnv (now : Nat) : TickEnv := { quietEnv (.other 0) with now := now }

/-- The state after `holdEnv` on `gatedBoard`: the press was forwarded to the main
screen and the repeat timer is armed at time 1000. -/
def heldBoard : InterfaceBoard :=
  { gatedBoard with
      button_timeout := repeatTimer true 1000,
      trace := gatedBoard.trace ++
        [.getButton, .notifyButtonPressed 10 0, .timeoutStart 100000,
         .resetUserInputTimeout, .setBuildPercentage 10 101, .update 10 false] }

/-- A sample tick at time 150000 whose pending button is `RESET` (button 2). -/
def lateResetEnv : TickEnv := { pressEnv 2 with now := 150000 }

/-- Operations that leave the timer armed: a poll before the interval has passed,
a push, and a `RESET` tick after the interval has passed. -/
def armedOps : List Op :=
  [.doUpdate (idleEnv 50000), .pushScreen 5, .doUpdate lateResetEnv]

/-- Operations after the timer was cleared: a press forwarded to a screen that
does not want continuous presses, a pop, and a later poll. -/
def clearedOps : List Op :=
  [.doUpdate { pressEnv 1 with now := 200000 }, .popScreen, .doUpdate (idleEnv 300000)]

/-! ## Stack accesses and closed forms of the operations -/

theorem frame_refl (b : InterfaceBoard) : Frame b b := by simp [Frame]

theorem frame_trans {a b c : InterfaceBoard} (h1 : Frame a b) (h2 : Frame b c) : Frame a c := by
  obtain ⟨h1a, h1b, h1c, h1d, h1e, h1f, h1g, h1h⟩ := h1
  obtain ⟨h2a, h2b, h2c, h2d, h2e, h2f, h2g, h2h⟩ := h2
  exact ⟨h2a.trans h1a, h2b.trans h1b, h2c.trans h1c, h2d.trans h1d, h2e.trans h1e,
    h2f.trans h1f, h2g.trans h1g, h2h.trans h1h⟩

theorem stackRead_some (xs : List Screen) (i : Int) (h0 : 0 ≤ i)
    (h1 : i < (xs.length : Int)) : ∃ x, stackRead xs i = some x := by
  have hlt : i.toNat < xs.length := by omega
  refine ⟨xs[i.toNat], ?_⟩
  simp [stackRead, List.getElem?_eq_getElem hlt]
  omega

theorem stackWrite_some (xs : List Screen) (i : Int) (v : Screen) (h0 : 0 ≤ i)
    (h1 : i < (xs.length : Int)) : stackWrite xs i v = some (xs.set i.toNat v) := by
  have hlt : i.toNat < xs.length := by omega
  simp [stackWrite, h0, hlt]

theorem stackRead_set_same (xs : List Screen) (i : Int) (v : Screen) (h0 : 0 ≤ i)
    (h1 : i < (xs.length : Int)) : stackRead (xs.set i.toNat v) i = some v := by
  have hlt : i.toNat < xs.length := by omega
  have h3 : ¬ i < 0 := by omega
  simp [stackRead, h3, hlt]

theorem stackRead_set_other (xs : List Screen) (i j : Int) (v : Screen) (h0 : 0 ≤ i)
    (hj : 0 ≤ j) (hne : i ≠ j) : stackRead (xs.set i.toNat v) j = stackRead xs j := by
  have h3 : i.toNat ≠ j.toNat := by omega
  simp [stackRead, List.getElem?_set_ne h3]

theorem current_some (cfg : Config) (b : InterfaceBoard) (h : WellFormed cfg b) :
    ∃ top, current b = some top := by
  obtain ⟨hlen, h0, h1⟩ := h
  exact stackRead_some b.screenStack b.screenIndex h0 (by omega)

theorem pushScreen_full (cfg : Config) (s top : Screen) (b : InterfaceBoard)
    (hfull : ¬ b.screenIndex < (cfg.SCREEN_STACK_DEPTH : Int) - 1)
    (htop : current b = some top) :
    pushScreen cfg s b = some (emit (.update top true) (emit (.reset top) b)) := by
  simp only [current] at htop
  simp [pushScreen, hfull, htop]

theorem pushScreen_room (cfg : Config) (s : Screen) (b : InterfaceBoard)
    (hlen : b.screenStack.length = cfg.SCREEN_STACK_DEPTH)
    (hroom : b.screenIndex < (cfg.SCREEN_STACK_DEPTH : Int) - 1) (hlo : -1 ≤ b.screenIndex) :
    pushScreen cfg s b = some (emit (.update s true) (emit (.reset s)
      { b with screenIndex := b.screenIndex + 1,
               screenStack := b.screenStack.set (b.screenIndex + 1).toNat s })) := by
  have hw := stackWrite_some b.screenStack (b.screenIndex + 1) s (by omega) (by omega)
  have hr := stackRead_set_same b.screenStack (b.screenIndex + 1) s (by omega) (by omega)
  simp [pushScreen, hroom, hw, hr]

theorem pushNoUpdate_full (cfg : Config) (s top : Screen) (b : InterfaceBoard)
    (hfull : ¬ b.screenIndex < (cfg.SCREEN_STACK_DEPTH : Int) - 1)
    (htop : current b = some top) :
    pushNoUpdate cfg s b = some (emit (.reset top) b) := by
  simp only [current] at htop
  simp [pushNoUpdate, hfull, htop]

theorem pushNoUpdate_room (cfg : Config) (s : Screen) (b : InterfaceBoard)
    (hlen : b.screenStack.length = cfg.SCREEN_STACK_DEPTH)
    (hroom : b.screenIndex < (cfg.SCREEN_STACK_DEPTH : Int) - 1) (hlo : -1 ≤ b.screenIndex) :
    pushNoUpdate cfg s b = some (emit (.reset s)
      { b with screenIndex := b.screenIndex + 1,
               screenStack := b.screenStack.set (b.screenIndex + 1).toNat s }) := by
  have hw := stackWrite_some b.screenStack (b.screenIndex + 1) s (by omega) (by omega)
  have hr := stackRead_set_same b.screenStack (b.screenIndex + 1) s (by omega) (by omega)
  simp [pushNoUpdate, hroom, hw, hr]

theorem popScreen_root (b : InterfaceBoard) (top : Screen) (h0 : b.screenIndex ≤ 0)
    (htop : current b = some top) :
    popScreen b = some (emit (.update top true) (emit (.pop top) b)) := by
  simp only [current] at htop
  have h1 : ¬ 0 < b.screenIndex := by omega
  simp [popScreen, htop, emit, h1]

theorem popScreen_above (b : InterfaceBoard) (top below : Screen) (hpos : 0 < b.screenIndex)
    (htop : current b = some top)
    (hbelow : stackRead b.screenStack (b.screenIndex - 1) = some below) :
    popScreen b = some (emit (.update below true)
      { emit (.pop top) b with screenIndex := b.screenIndex - 1 }) := by
  simp only [current] at htop
  simp [popScreen, htop, emit, hpos, hbelow]

theorem pop2Screens_low (b : InterfaceBoard) (top : Screen) (hle : b.screenIndex ≤ 1)
    (htop : current b = some top) :
    pop2Screens b = some (emit (.update top true) b) := by
  simp only [current] at htop
  have h1 : ¬ 1 < b.screenIndex := by omega
  simp [pop2Screens, h1, htop]

theorem pop2Screens_high (b : InterfaceBoard) (x : Screen) (hgt : 1 < b.screenIndex)
    (hx : stackRead b.screenStack (b.screenIndex - 2) = some x) :
    pop2Screens b = some (emit (.update x true) { b with screenIndex := b.screenIndex - 2 }) := by
  simp [pop2Screens, hgt, hx]

theorem traceExt_refl (b : InterfaceBoard) : TraceExt b b := ⟨[], by simp, by simp⟩

theorem traceExt_trans {a b c : InterfaceBoard} (h1 : TraceExt a b) (h2 : TraceExt b c) :
    TraceExt a c := by
  obtain ⟨e1, h1a, h1b⟩ := h1
  obtain ⟨e2, h2a, h2b⟩ := h2
  refine ⟨e1 ++ e2, by rw [h2a, h1a, List.append_assoc], ?_⟩
  intro e he
  rcases List.mem_append.mp he with h | h
  · exact h1b e h
  · exact h2b e h

theorem traceExt_of_trace {b b' : InterfaceBoard} (evs : List Event)
    (h : b'.trace = b.trace ++ evs) (hs : evs.all Event.isStackCall = true) : TraceExt b b' :=
  ⟨evs, h, by simpa using hs⟩

theorem stackStep_trans {cfg : Config} {a b c : InterfaceBoard} (h1 : StackStep cfg a b)
    (h2 : StackStep cfg b c) : StackStep cfg a c :=
  ⟨h2.1, frame_trans h1.2.1 h2.2.1, h2.2.2.1.trans h1.2.2.1, h2.2.2.2.1.trans h1.2.2.2.1,
    h2.2.2.2.2.1.trans h1.2.2.2.2.1, traceExt_trans h1.2.2.2.2.2 h2.2.2.2.2.2⟩

theorem pushScreen_step (cfg : Config) (s : Screen) (b : InterfaceBoard)
    (h : WellFormed cfg b) : ∃ b', pushScreen cfg s b = some b' ∧ StackStep cfg b b' := by
  obtain ⟨top, htop⟩ := current_some cfg b h
  obtain ⟨hlen, h0, h1⟩ := h
  by_cases hroom : b.screenIndex < (cfg.SCREEN_STACK_DEPTH : Int) - 1
  · refine ⟨_, pushScreen_room cfg s b hlen hroom (by omega), ?_, ?_, rfl, rfl, ?_, ?_⟩
    · simp only [WellFormed, emit, List.length_set]
      omega
    · simp [Frame, emit]
    · simp only [emit]
      exact stackRead_set_other _ _ _ _ (by omega) (by omega) (by omega)
    · exact traceExt_of_trace [.reset s, .update s true] (by simp [emit]) rfl
  · refine ⟨_, pushScreen_full cfg s top b hroom htop, ?_, ?_, rfl, rfl, rfl, ?_⟩
    · simp only [WellFormed, emit]
      omega
    · simp [Frame, emit]
    · exact traceExt_of_trace [.reset top, .update top true] (by simp [emit]) rfl

theorem pushNoUpdate_step (cfg : Config) (s : Screen) (b : InterfaceBoard)
    (h : WellFormed cfg b) : ∃ b', pushNoUpdate cfg s b = some b' ∧ StackStep cfg b b' := by
  obtain ⟨top, htop⟩ := current_some cfg b h
  obtain ⟨hlen, h0, h1⟩ := h
  by_cases hroom : b.screenIndex < (cfg.SCREEN_STACK_DEPTH : Int) - 1
  · refine ⟨_, pushNoUpdate_room cfg s b hlen hroom (by omega), ?_, ?_, rfl, rfl, ?_, ?_⟩
    · simp only [WellFormed, emit, List.length_set]
      omega
    · simp [Frame, emit]
    · simp only [emit]
      exact stackRead_set_other _ _ _ _ (by omega) (by omega) (by omega)
    · exact traceExt_of_trace [.reset s] (by simp [emit]) rfl
  · refine ⟨_, pushNoUpdate_full cfg s top b hroom htop, ?_, ?_, rfl, rfl, rfl, ?_⟩
    · simp only [WellFormed, emit]
      omega
    · simp [Frame, emit]
    · exact traceExt_of_trace [.reset top] (by simp [emit]) rfl

theorem popScreen_step (cfg : Config) (b : InterfaceBoard) (h : WellFormed cfg b) :
    ∃ b', popScreen b = some b' ∧ StackStep cfg b b' ∧
      b'.screenStack = b.screenStack ∧
      b'.screenIndex = (if 0 < b.screenIndex then b.screenIndex - 1 else b.screenIndex) := by
  obtain ⟨top, htop⟩ := current_some cfg b h
  obtain ⟨hlen, h0, h1⟩ := h
  by_cases hpos : 0 < b.screenIndex
  · obtain ⟨below, hbelow⟩ :=
      stackRead_some b.screenStack (b.screenIndex - 1) (by omega) (by omega)
    refine ⟨_, popScreen_above b top below hpos htop hbelow, ⟨?_, ?_, rfl, rfl, rfl, ?_⟩,
      rfl, ?_⟩
    · simp only [WellFormed, emit]
      omega
    · simp [Frame, emit]
    · exact traceExt_of_trace [.pop top, .update below true] (by simp [emit]) rfl
    · simp [emit, hpos]
  · refine ⟨_, popScreen_root b top (by omega) htop, ⟨?_, ?_, rfl, rfl, rfl, ?_⟩, rfl, ?_⟩
    · simp only [WellFormed, emit]
      omega
    · simp [Frame, emit]
    · exact traceExt_of_trace [.pop top, .update top true] (by simp [emit]) rfl
    · simp [emit, hpos]

theorem pop2Screens_step (cfg : Config) (b : InterfaceBoard) (h : WellFormed cfg b) :
    ∃ b', pop2Screens b = some b' ∧ StackStep cfg b b' := by
  obtain ⟨top, htop⟩ := current_some cfg b h
  obtain ⟨hlen, h0, h1⟩ := h
  by_cases hgt : 1 < b.screenIndex
  · obtain ⟨x, hx⟩ := stackRead_some b.screenStack (b.screenIndex - 2) (by omega) (by omega)
    refine ⟨_, pop2Screens_high b x hgt hx, ?_, ?_, rfl, rfl, rfl, ?_⟩
    · simp only [WellFormed, emit]
      omega
    · simp [Frame, emit]
    · exact traceExt_of_trace [.update x true] (by simp [emit]) rfl
  · refine ⟨_, pop2Screens_low b top (by omega) htop, ?_, ?_, rfl, rfl, rfl, ?_⟩
    · simp only [WellFormed, emit]
      omega
    · simp [Frame, emit]
    · exact traceExt_of_trace [.update top true] (by simp [emit]) rfl

/-- The unwind loop ends: with at least `screenIndex` iterations allowed it stops
at `min screenIndex floor`, having changed only the index and the trace. -/
theorem popWhileAbove_step (cfg : Config) (floor : Int) (hfloor : 0 ≤ floor) (fuel : Nat)
    (b : InterfaceBoard) (h : WellFormed cfg b) (hfuel : b.screenIndex ≤ fuel) :
    ∃ b', popWhileAbove floor fuel b = some b' ∧ StackStep cfg b b' ∧
      b'.screenStack = b.screenStack ∧ b'.screenIndex = min b.screenIndex floor := by
  induction fuel generalizing b with
  | zero =>
    have hle : ¬ b.screenIndex > floor := by
      have := h.2.1
      simp at hfuel
      omega
    refine ⟨b, by simp [popWhileAbove, hle],
      ⟨h, frame_refl b, rfl, rfl, rfl, traceExt_refl b⟩, rfl, ?_⟩
    omega
  | succ n ih =>
    by_cases hgt : b.screenIndex > floor
    · obtain ⟨b1, hpop, hstep, hstack, hidx⟩ := popScreen_step cfg b h
      have hpos : 0 < b.screenIndex := by omega
      rw [if_pos hpos] at hidx
      obtain ⟨b2, hrest, hstep2, hstack2, hidx2⟩ := ih b1 hstep.1 (by push_cast at hfuel; omega)
      refine ⟨b2, ?_, stackStep_trans hstep hstep2, hstack2.trans hstack, ?_⟩
      · simp [popWhileAbove, hgt, hpop, hrest]
      · omega
    · refine ⟨b, by simp [popWhileAbove, hgt],
        ⟨h, frame_refl b, rfl, rfl, rfl, traceExt_refl b⟩, rfl, ?_⟩
      omega

theorem pushBehind_room (cfg : Config) (b : InterfaceBoard) (top : Screen)
    (hlen : b.screenStack.length = cfg.SCREEN_STACK_DEPTH) (h0 : 0 ≤ b.screenIndex)
    (hroom : b.screenIndex < (cfg.SCREEN_STACK_DEPTH : Int) - 1)
    (htop : current b = some top) :
    pushBehind cfg b = some (emit (.reset b.buildScreen)
      { b with screenIndex := b.screenIndex + 1,
               screenStack := (b.screenStack.set (b.screenIndex + 1).toNat top).set
                 b.screenIndex.toNat b.buildScreen }) := by
  simp only [current] at htop
  have hw := stackWrite_some b.screenStack (b.screenIndex + 1) top (by omega) (by omega)
  have hw2 := stackWrite_some (b.screenStack.set (b.screenIndex + 1).toNat top) b.screenIndex
    b.buildScreen h0 (by simp only [List.length_set]; omega)
  simp [pushBehind, hroom, htop, hw, hw2]

theorem pushBehind_full (cfg : Config) (b : InterfaceBoard)
    (hfull : ¬ b.screenIndex < (cfg.SCREEN_STACK_DEPTH : Int) - 1)
    (h1 : 1 ≤ b.screenIndex) (hlt : b.screenIndex < (b.screenStack.length : Int)) :
    pushBehind cfg b = some (emit (.reset b.buildScreen)
      { b with screenStack := b.screenStack.set (b.screenIndex - 1).toNat b.buildScreen }) := by
  have hw := stackWrite_some b.screenStack (b.screenIndex - 1) b.buildScreen (by omega) (by omega)
  simp [pushBehind, hfull, hw]

theorem pushBehind_step (cfg : Config) (b : InterfaceBoard) (h : WellFormed cfg b)
    (hD : 2 ≤ cfg.SCREEN_STACK_DEPTH) :
    ∃ m, pushBehind cfg b = some m ∧ MonitorStep cfg b m ∧
      (1 ≤ b.screenIndex → b.screenIndex < (cfg.SCREEN_STACK_DEPTH : Int) - 1 →
        stackRead m.screenStack 0 = stackRead b.screenStack 0) := by
  obtain ⟨top, htop⟩ := current_some cfg b h
  obtain ⟨hlen, h0, h1⟩ := h
  by_cases hroom : b.screenIndex < (cfg.SCREEN_STACK_DEPTH : Int) - 1
  · refine ⟨_, pushBehind_room cfg b top hlen h0 hroom htop, ⟨?_, ?_, ?_⟩, ?_⟩
    · simp only [WellFormed, emit, List.length_set]
      omega
    · simp [Frame, emit]
    · exact traceExt_of_trace [.reset b.buildScreen] (by simp [emit]) rfl
    · intro h1 _
      simp only [emit]
      rw [stackRead_set_other _ _ _ _ (by omega) (by omega) (by omega),
        stackRead_set_other _ _ _ _ (by omega) (by omega) (by omega)]
  · refine ⟨_, pushBehind_full cfg b hroom (by omega) (by omega), ⟨?_, ?_, ?_⟩, ?_⟩
    · simp only [WellFormed, emit, List.length_set]
      omega
    · simp [Frame, emit]
    · exact traceExt_of_trace [.reset b.buildScreen] (by simp [emit]) rfl
    · intro _ h2
      exact absurd h2 hroom

theorem buildStart_behind (cfg : Config) (env : TickEnv) (b : InterfaceBoard) (top : Screen)
    (hb : b.building = false) (htop : current b = some top)
    (hw : (env.screenWaiting top || env.commandWaiting) = true) :
    buildStart cfg env b = (pushBehind cfg b).map fun m => { m with building := true } := by
  simp only [current] at htop
  unfold buildStart
  simp only [hb, htop, Bool.not_false, if_true, Option.bind_eq_bind, Option.some_bind, hw]
  cases pushBehind cfg b <;> rfl

theorem buildStart_onTop (cfg : Config) (env : TickEnv) (b : InterfaceBoard) (top : Screen)
    (hb : b.building = false) (htop : current b = some top)
    (hw : (env.screenWaiting top || env.commandWaiting) = false) :
    buildStart cfg env b =
      (pushScreen cfg b.buildScreen b).map fun m => { m with building := true } := by
  simp only [current] at htop
  unfold buildStart
  simp only [hb, htop, Bool.not_false, if_true, Option.bind_eq_bind, Option.some_bind, hw]
  cases pushScreen cfg b.buildScreen b <;> rfl

theorem buildStart_already (cfg : Config) (env : TickEnv) (b : InterfaceBoard)
    (hb : b.building = true) : buildStart cfg env b = some b := by
  simp [buildStart, hb]

theorem buildStart_step (cfg : Config) (env : TickEnv) (b : InterfaceBoard)
    (h : WellFormed cfg b) (hD : 2 ≤ cfg.SCREEN_STACK_DEPTH) :
    ∃ m, buildStart cfg env b = some m ∧ MonitorStep cfg b m ∧
      (((!b.building && match current b with
          | some top => env.screenWaiting top || env.commandWaiting
          | none => false) = true →
          1 ≤ b.screenIndex ∧ b.screenIndex < (cfg.SCREEN_STACK_DEPTH : Int) - 1) →
        stackRead m.screenStack 0 = stackRead b.screenStack 0) := by
  obtain ⟨top, htop⟩ := current_some cfg b h
  cases hb : b.building with
  | true =>
    exact ⟨b, buildStart_already cfg env b hb, ⟨h, frame_refl b, traceExt_refl b⟩,
      fun _ => rfl⟩
  | false =>
    cases hw : (env.screenWaiting top || env.commandWaiting) with
    | true =>
      obtain ⟨m, hm, hstep, hroot⟩ := pushBehind_step cfg b h hD
      refine ⟨{ m with building := true }, ?_, ?_, ?_⟩
      · rw [buildStart_behind cfg env b top hb htop hw, hm]
        rfl
      · obtain ⟨hwf, hfr, htr⟩ := hstep
        exact ⟨hwf, hfr, htr⟩
      · intro hguard
        have := hguard (by simp only [htop, hw]; rfl)
        exact hroot this.1 this.2
    | false =>
      obtain ⟨m, hm, hstep⟩ := pushScreen_step cfg b.buildScreen b h
      refine ⟨{ m with building := true }, ?_, ?_, ?_⟩
      · rw [buildStart_onTop cfg env b top hb htop hw, hm]
        rfl
      · obtain ⟨hwf, hfr, _, _, _, htr⟩ := hstep
        exact ⟨hwf, hfr, htr⟩
      · intro _
        exact hstep.2.2.2.2.1

theorem buildEnd_step (cfg : Config) (env : TickEnv) (b : InterfaceBoard)
    (h : WellFormed cfg b) :
    ∃ m, buildEnd env b = some m ∧ MonitorStep cfg b m ∧
      stackRead m.screenStack 0 = stackRead b.screenStack 0 := by
  obtain ⟨top, htop⟩ := current_some cfg b h
  simp only [current] at htop
  by_cases hb : b.building = true
  · by_cases hw : env.screenWaiting top = true
    · exact ⟨b, by simp [buildEnd, hb, htop, hw], ⟨h, frame_refl b, traceExt_refl b⟩, rfl⟩
    · have hfuel : b.screenIndex ≤ (b.screenIndex.toNat : Int) := by
        have := h.2.1
        omega
      by_cases ho : b.onboard_build = true
      · obtain ⟨m, hm, hstep, _, _⟩ :=
          popWhileAbove_step cfg 1 (by omega) b.screenIndex.toNat b h hfuel
        refine ⟨{ m with building := false }, by simp [buildEnd, hb, htop, hw, ho, hm], ?_, ?_⟩
        · exact ⟨hstep.1, hstep.2.1, hstep.2.2.2.2.2⟩
        · exact hstep.2.2.2.2.1
      · obtain ⟨m, hm, hstep, _, _⟩ :=
          popWhileAbove_step cfg 0 (by omega) b.screenIndex.toNat b h hfuel
        refine ⟨{ m with building := false }, by simp [buildEnd, hb, htop, hw, ho, hm], ?_, ?_⟩
        · exact ⟨hstep.1, hstep.2.1, hstep.2.2.2.2.2⟩
        · exact hstep.2.2.2.2.1
  · exact ⟨b, by simp [buildEnd, hb], ⟨h, frame_refl b, traceExt_refl b⟩, rfl⟩

theorem monitor_step (cfg : Config) (env : TickEnv) (b : InterfaceBoard)
    (h : WellFormed cfg b) (hD : 2 ≤ cfg.SCREEN_STACK_DEPTH) :
    ∃ m, monitor cfg env b = some m ∧ MonitorStep cfg b m ∧
      ((takesPushBehind env b = true →
          1 ≤ b.screenIndex ∧ b.screenIndex < (cfg.SCREEN_STACK_DEPTH : Int) - 1) →
        stackRead m.screenStack 0 = stackRead b.screenStack 0) := by
  unfold monitor takesPushBehind
  cases hs : env.hostState with
  | HOST_STATE_BUILDING_ONBOARD =>
    have h' : WellFormed cfg { b with onboard_build := true } := h
    obtain ⟨m, hm, hstep, hroot⟩ :=
      buildStart_step cfg env { b with onboard_build := true } h' hD
    exact ⟨m, hm, ⟨hstep.1, hstep.2.1, hstep.2.2⟩, hroot⟩
  | HOST_STATE_BUILDING => exact buildStart_step cfg env b h hD
  | HOST_STATE_BUILDING_FROM_SD => exact buildStart_step cfg env b h hD
  | HOST_STATE_HEAT_SHUTDOWN =>
    exact ⟨b, rfl, ⟨h, frame_refl b, traceExt_refl b⟩, fun _ => rfl⟩
  | other code =>
    obtain ⟨m, hm, hstep, hroot⟩ := buildEnd_step cfg env b h
    exact ⟨m, hm, hstep, fun _ => hroot⟩

theorem pollRepeatTimer_eq (env : TickEnv) (b : InterfaceBoard) :
    pollRepeatTimer env b =
      { b with button_timeout := pollTimer env b.button_timeout,
               trace := b.trace ++ pollEvents env b.button_timeout } := by
  unfold pollRepeatTimer pollEvents pollTimer
  cases h : (b.button_timeout.hasElapsed env.now).2 <;> simp [h, emit]

theorem finishTick_eq (env : TickEnv) (b : InterfaceBoard) (top : Screen)
    (htop : current b = some top) :
    finishTick env b = some
      { b with button_timeout := pollTimer env b.button_timeout,
               trace := b.trace ++ (pollEvents env b.button_timeout ++
                 [.setBuildPercentage top b.buildPercentage, .update top false]) } := by
  simp only [current] at htop
  simp [finishTick, pollRepeatTimer_eq, htop, emit]

theorem forwardButton_notify (cfg : Config) (env : TickEnv) (button : ButtonName)
    (b : InterfaceBoard) (top : Screen) (hegg : button ≠ cfg.EGG)
    (htop : current b = some top) :
    forwardButton cfg env button b = some
      (if env.continuousButtons top then
        { b with button_timeout := b.button_timeout.start 100000 env.now,
                 trace := b.trace ++ [.notifyButtonPressed top button, .timeoutStart 100000] }
       else { b with trace := b.trace ++ [.notifyButtonPressed top button] }) := by
  simp only [current] at htop
  cases hc : env.continuousButtons top <;> simp [forwardButton, hegg, htop, hc, emit]

theorem dispatchButton_swallow (cfg : Config) (env : TickEnv) (button : ButtonName)
    (b : InterfaceBoard) (top : Screen) (hbit : (1 <<< button) &&& b.waitingMask ≠ 0)
    (htop : current b = some top) (hcancel : env.isCancelScreen top = false) :
    dispatchButton cfg env button b = some { b with waitingMask := 0 } := by
  simp only [current] at htop
  simp [dispatchButton, hbit, htop, hcancel]

theorem dispatchButton_pass (cfg : Config) (env : TickEnv) (button : ButtonName)
    (b : InterfaceBoard) (top : Screen) (htop : current b = some top)
    (hpass : (1 <<< button) &&& b.waitingMask = 0 ∨ env.isCancelScreen top = true) :
    dispatchButton cfg env button b = forwardButton cfg env button b := by
  simp only [current] at htop
  by_cases hbit : (1 <<< button) &&& b.waitingMask = 0
  · simp [dispatchButton, hbit]
  · rcases hpass with h | h
    · exact absurd h hbit
    · simp [dispatchButton, hbit, htop, h]

theorem router_locked (cfg : Config) (env : TickEnv) (b : InterfaceBoard)
    (h : b.screen_locked = true) : router cfg env b = some b := by
  simp [router, h]

theorem router_reset (cfg : Config) (env : TickEnv) (b : InterfaceBoard)
    (h : b.screen_locked = false) (hp : env.pending = some cfg.RESET) :
    router cfg env b = some (emit .stopBuild (emit .getButton b)) := by
  simp [router, h, hp]

theorem router_button (cfg : Config) (env : TickEnv) (b : InterfaceBoard) (button : ButtonName)
    (h : b.screen_locked = false) (hp : env.pending = some button) (hr : button ≠ cfg.RESET) :
    router cfg env b = (dispatchButton cfg env button (emit .getButton b)).bind fun b1 =>
      finishTick env (emit .resetUserInputTimeout b1) := by
  simp [router, h, hp, hr]

theorem router_idle (cfg : Config) (env : TickEnv) (b : InterfaceBoard)
    (h : b.screen_locked = false) (hp : env.pending = none) :
    router cfg env b = finishTick env (emit .getButton b) := by
  simp [router, h, hp]

theorem finishTick_step (cfg : Config) (env : TickEnv) (b : InterfaceBoard)
    (h : WellFormed cfg b) : ∃ b', finishTick env b = some b' ∧ RouterStep cfg b b' := by
  obtain ⟨top, htop⟩ := current_some cfg b h
  exact ⟨_, finishTick_eq env b top htop, h, rfl, rfl, Or.inl rfl⟩

theorem dispatchButton_step (cfg : Config) (env : TickEnv) (button : ButtonName)
    (b : InterfaceBoard) (h : WellFormed cfg b) :
    ∃ b', dispatchButton cfg env button b = some b' ∧ RouterStep cfg b b' := by
  obtain ⟨top, htop⟩ := current_some cfg b h
  have hfwd : ∃ b', forwardButton cfg env button b = some b' ∧ RouterStep cfg b b' := by
    by_cases hegg : button = cfg.EGG
    · obtain ⟨b', hb', hstep⟩ := pushScreen_step cfg b.snake b h
      exact ⟨b', by simp [forwardButton, hegg, hb'], hstep.1, hstep.2.2.2.2.1,
        hstep.2.1.2.2.2.2.1, Or.inl hstep.2.1.1⟩
    · refine ⟨_, forwardButton_notify cfg env button b top hegg htop, ?_⟩
      cases env.continuousButtons top
      · exact ⟨h, rfl, rfl, Or.inl rfl⟩
      · exact ⟨h, rfl, rfl, Or.inl rfl⟩
  by_cases hpass : (1 <<< button) &&& b.waitingMask = 0 ∨ env.isCancelScreen top = true
  · rw [dispatchButton_pass cfg env button b top htop hpass]
    exact hfwd
  · have hbit : (1 <<< button) &&& b.waitingMask ≠ 0 := fun hh => hpass (Or.inl hh)
    have hc : env.isCancelScreen top = false := by
      cases hcc : env.isCancelScreen top
      · rfl
      · exact absurd (Or.inr hcc) hpass
    exact ⟨_, dispatchButton_swallow cfg env button b top hbit htop hc, h, rfl, rfl, Or.inr rfl⟩

theorem router_step (cfg : Config) (env : TickEnv) (b : InterfaceBoard)
    (h : WellFormed cfg b) : ∃ b', router cfg env b = some b' ∧ RouterStep cfg b b' := by
  cases hl : b.screen_locked with
  | true => exact ⟨b, router_locked cfg env b hl, h, rfl, rfl, Or.inl rfl⟩
  | false =>
    cases hp : env.pending with
    | none =>
      rw [router_idle cfg env b hl hp]
      exact finishTick_step cfg env (emit .getButton b) h
    | some button =>
      by_cases hr : button = cfg.RESET
      · subst hr
        exact ⟨_, router_reset cfg env b hl hp, h, rfl, rfl, Or.inl rfl⟩
      · rw [router_button cfg env b button hl hp hr]
        obtain ⟨b1, hb1, hs1⟩ := dispatchButton_step cfg env button (emit .getButton b) h
        obtain ⟨b2, hb2, hs2⟩ := finishTick_step cfg env (emit .resetUserInputTimeout b1) hs1.1
        refine ⟨b2, by simp [hb1, hb2], hs2.1, hs2.2.1.trans hs1.2.1,
          hs2.2.2.1.trans hs1.2.2.1, ?_⟩
        rcases hs2.2.2.2 with h2 | h2
        · rcases hs1.2.2.2 with h1 | h1
          · exact Or.inl (h2.trans h1)
          · exact Or.inr (h2.trans h1)
        · exact Or.inr h2

theorem init_eq (cfg : Config) (b0 : InterfaceBoard)
    (hlen : b0.screenStack.length = cfg.SCREEN_STACK_DEPTH) (hD : 1 ≤ cfg.SCREEN_STACK_DEPTH) :
    init cfg b0 = some
      { b0 with building := false, screenIndex := 0, waitingMask := 0, screen_locked := false,
                screenStack := b0.screenStack.set 0 b0.mainScreen,
                trace := b0.trace ++ [.reset b0.mainScreen, .update b0.mainScreen true] } := by
  have h := pushScreen_room cfg b0.mainScreen
    { b0 with building := false, screenIndex := -1, waitingMask := 0 } hlen
    (by show (-1 : Int) < _; omega) (by show (-1 : Int) ≤ -1; omega)
  simp only [init, h]
  simp [emit]

theorem init_step (cfg : Config) (b0 : InterfaceBoard)
    (hlen : b0.screenStack.length = cfg.SCREEN_STACK_DEPTH) (hD : 1 ≤ cfg.SCREEN_STACK_DEPTH) :
    ∃ b, init cfg b0 = some b ∧ WellFormed cfg b ∧
      stackRead b.screenStack 0 = some b0.mainScreen ∧ b.mainScreen = b0.mainScreen := by
  refine ⟨_, init_eq cfg b0 hlen hD, ⟨?_, ?_, ?_⟩, ?_, rfl⟩
  · simp [hlen]
  · simp
  · show (0 : Int) < _
    omega
  · exact stackRead_set_same b0.screenStack 0 b0.mainScreen (by omega) (by omega)

theorem doUpdate_step (cfg : Config) (env : TickEnv) (b : InterfaceBoard)
    (h : WellFormed cfg b) (hD : 2 ≤ cfg.SCREEN_STACK_DEPTH) :
    ∃ b', doUpdate cfg env b = some b' ∧ WellFormed cfg b' ∧ b'.mainScreen = b.mainScreen ∧
      ((takesPushBehind env b = true →
          1 ≤ b.screenIndex ∧ b.screenIndex < (cfg.SCREEN_STACK_DEPTH : Int) - 1) →
        stackRead b'.screenStack 0 = stackRead b.screenStack 0) := by
  obtain ⟨m, hm, hstep, hroot⟩ := monitor_step cfg env b h hD
  obtain ⟨b', hb', hr⟩ := router_step cfg env m hstep.1
  refine ⟨b', by simp [doUpdate, hm, hb'], hr.1, hr.2.2.1.trans hstep.2.1.2.2.2.2.1, ?_⟩
  intro hg
  exact hr.2.1.trans (hroot hg)

theorem step_wellFormed (cfg : Config) (hD : 2 ≤ cfg.SCREEN_STACK_DEPTH) (op : Op)
    (b : InterfaceBoard) (h : WellFormed cfg b) :
    ∃ b', step cfg op b = some b' ∧ WellFormed cfg b' := by
  cases op with
  | pushScreen s =>
    obtain ⟨b', h1, h2⟩ := pushScreen_step cfg s b h
    exact ⟨b', h1, h2.1⟩
  | pushNoUpdate s =>
    obtain ⟨b', h1, h2⟩ := pushNoUpdate_step cfg s b h
    exact ⟨b', h1, h2.1⟩
  | popScreen =>
    obtain ⟨b', h1, h2, _⟩ := popScreen_step cfg b h
    exact ⟨b', h1, h2.1⟩
  | pop2Screens =>
    obtain ⟨b', h1, h2⟩ := pop2Screens_step cfg b h
    exact ⟨b', h1, h2.1⟩
  | doUpdate env =>
    obtain ⟨b', h1, h2, _⟩ := doUpdate_step cfg env b h hD
    exact ⟨b', h1, h2⟩

theorem run_wellFormed (cfg : Config) (hD : 2 ≤ cfg.SCREEN_STACK_DEPTH) (ops : List Op)
    (b : InterfaceBoard) (h : WellFormed cfg b) :
    ∃ b', run cfg ops b = some b' ∧ WellFormed cfg b' := by
  induction ops generalizing b with
  | nil => exact ⟨b, rfl, h⟩
  | cons op ops ih =>
    obtain ⟨b1, h1, hw1⟩ := step_wellFormed cfg hD op b h
    obtain ⟨b2, h2, hw2⟩ := ih b1 hw1
    exact ⟨b2, by simp [run, h1, h2], hw2⟩

theorem router_swallow (cfg : Config) (env : TickEnv) (m : InterfaceBoard)
    (button : ButtonName) (top : Screen) (hunlocked : m.screen_locked = false)
    (hpending : env.pending = some button) (hreset : button ≠ cfg.RESET)
    (hbit : (1 <<< button) &&& m.waitingMask ≠ 0) (htop : current m = some top)
    (hcancel : env.isCancelScreen top = false) :
    router cfg env m = some
      { m with waitingMask := 0, button_timeout := pollTimer env m.button_timeout,
               trace := m.trace ++ ([.getButton, .resetUserInputTimeout] ++
                 pollEvents env m.button_timeout ++
                 [.setBuildPercentage top m.buildPercentage, .update top false]) } := by
  simp only [current] at htop
  simp [router, hunlocked, hpending, hreset, dispatchButton, hbit, htop, hcancel, finishTick,
    pollRepeatTimer_eq, emit]

theorem router_forward (cfg : Config) (env : TickEnv) (m : InterfaceBoard)
    (button : ButtonName) (top : Screen) (hunlocked : m.screen_locked = false)
    (hpending : env.pending = some button) (hreset : button ≠ cfg.RESET)
    (hegg : button ≠ cfg.EGG) (htop : current m = some top)
    (hpass : (1 <<< button) &&& m.waitingMask = 0 ∨ env.isCancelScreen top = true) :
    router cfg env m = some
      { m with
          button_timeout := pollTimer env
            (if env.continuousButtons top then m.button_timeout.start 100000 env.now
             else m.button_timeout),
          trace := m.trace ++ ([.getButton, .notifyButtonPressed top button] ++
            (if env.continuousButtons top then [.timeoutStart 100000] else []) ++
            [.resetUserInputTimeout] ++
            pollEvents env
              (if env.continuousButtons top then m.button_timeout.start 100000 env.now
               else m.button_timeout) ++
            [.setBuildPercentage top m.buildPercentage, .update top false]) } := by
  have hd := dispatchButton_pass cfg env button (emit .getButton m) top htop hpass
  have hf := forwardButton_notify cfg env button (emit .getButton m) top hegg htop
  simp only [current] at htop
  rw [router_button cfg env m button hunlocked hpending hreset, hd, hf]
  cases hc : env.continuousButtons top <;>
    simp [finishTick, pollRepeatTimer_eq, htop, emit]

theorem step_root (cfg : Config) (hD : 2 ≤ cfg.SCREEN_STACK_DEPTH) (op : Op)
    (b : InterfaceBoard) (h : WellFormed cfg b) (hsafe : rootSafe cfg op b = true) :
    ∃ b', step cfg op b = some b' ∧ WellFormed cfg b' ∧ b'.mainScreen = b.mainScreen ∧
      stackRead b'.screenStack 0 = stackRead b.screenStack 0 := by
  cases op with
  | pushScreen s =>
    obtain ⟨b', h1, h2⟩ := pushScreen_step cfg s b h
    exact ⟨b', h1, h2.1, h2.2.1.2.2.2.2.1, h2.2.2.2.2.1⟩
  | pushNoUpdate s =>
    obtain ⟨b', h1, h2⟩ := pushNoUpdate_step cfg s b h
    exact ⟨b', h1, h2.1, h2.2.1.2.2.2.2.1, h2.2.2.2.2.1⟩
  | popScreen =>
    obtain ⟨b', h1, h2, _⟩ := popScreen_step cfg b h
    exact ⟨b', h1, h2.1, h2.2.1.2.2.2.2.1, h2.2.2.2.2.1⟩
  | pop2Screens =>
    obtain ⟨b', h1, h2⟩ := pop2Screens_step cfg b h
    exact ⟨b', h1, h2.1, h2.2.1.2.2.2.2.1, h2.2.2.2.2.1⟩
  | doUpdate env =>
    obtain ⟨b', h1, h2, h3, h4⟩ := doUpdate_step cfg env b h hD
    refine ⟨b', h1, h2, h3, h4 ?_⟩
    intro ht
    simpa [rootSafe, ht] using hsafe

theorem run_root (cfg : Config) (hD : 2 ≤ cfg.SCREEN_STACK_DEPTH) (ops : List Op)
    (b : InterfaceBoard) (h : WellFormed cfg b) (hsafe : rootSafeRun cfg ops b = true) :
    ∃ b', run cfg ops b = some b' ∧ b'.mainScreen = b.mainScreen ∧
      stackRead b'.screenStack 0 = stackRead b.screenStack 0 := by
  induction ops generalizing b with
  | nil => exact ⟨b, rfl, rfl, rfl⟩
  | cons op ops ih =>
    simp only [rootSafeRun, Bool.and_eq_true] at hsafe
    obtain ⟨b1, h1, hw1, hm1, hr1⟩ := step_root cfg hD op b h hsafe.1
    have hrest := hsafe.2
    rw [h1] at hrest
    obtain ⟨b2, h2, hm2, hr2⟩ := ih b1 hw1 hrest
    exact ⟨b2, by simp [run, h1, h2], hm2.trans hm1, hr2.trans hr1⟩

theorem repeat_popScreen_root (top : Screen) (n : Nat) (b : InterfaceBoard)
    (h0 : b.screenIndex = 0) (htop : current b = some top) :
    ∃ b', repeatOp popScreen n b = some b' ∧ b'.screenIndex = 0 ∧
      b'.screenStack = b.screenStack := by
  induction n generalizing b with
  | zero => exact ⟨b, rfl, h0, rfl⟩
  | succ n ih =>
    have hpop := popScreen_root b top (by omega) htop
    obtain ⟨b', h1, h2, h3⟩ := ih (emit (.update top true) (emit (.pop top) b)) h0 htop
    exact ⟨b', by simp [repeatOp, hpop, h1], h2, h3⟩

theorem repeat_pop2Screens_root (top : Screen) (n : Nat) (b : InterfaceBoard)
    (h0 : b.screenIndex = 0) (htop : current b = some top) :
    ∃ b', repeatOp pop2Screens n b = some b' ∧ b'.screenIndex = 0 ∧
      b'.screenStack = b.screenStack := by
  induction n generalizing b with
  | zero => exact ⟨b, rfl, h0, rfl⟩
  | succ n ih =>
    have hpop := pop2Screens_low b top (by omega) htop
    obtain ⟨b', h1, h2, h3⟩ := ih (emit (.update top true) b) h0 htop
    exact ⟨b', by simp [repeatOp, hpop, h1], h2, h3⟩

theorem buildStart_behind_room (cfg : Config) (env : TickEnv) (b : InterfaceBoard)
    (top : Screen) (hwf : WellFormed cfg b) (hb : b.building = false)
    (hroom : b.screenIndex < (cfg.SCREEN_STACK_DEPTH : Int) - 1)
    (htop : current b = some top)
    (hw : (env.screenWaiting top || env.commandWaiting) = true) :
    buildStart cfg env b = some
      { b with screenIndex := b.screenIndex + 1,
               screenStack := (b.screenStack.set (b.screenIndex + 1).toNat top).set
                 b.screenIndex.toNat b.buildScreen,
               building := true,
               trace := b.trace ++ [.reset b.buildScreen] } := by
  rw [buildStart_behind cfg env b top hb htop hw,
    pushBehind_room cfg b top hwf.1 hwf.2.1 hroom htop]
  rfl

theorem not_mem_of_stackCalls {evs : List Event} (h : ∀ e ∈ evs, e.isStackCall = true)
    (e : Event) (he : e.isStackCall = false) : e ∉ evs := by
  intro hmem
  rw [h e hmem] at he
  exact Bool.noConfusion he

theorem filter_isNotify_of_stackCalls {evs : List Event}
    (h : ∀ e ∈ evs, e.isStackCall = true) : evs.filter Event.isNotify = [] := by
  rw [List.filter_eq_nil_iff]
  intro e he
  have := h e he
  cases e <;> simp_all [Event.isNotify, Event.isStackCall]

theorem filter_isNotify_pollEvents (env : TickEnv) (t : Timeout) :
    (pollEvents env t).filter Event.isNotify = [] := by
  unfold pollEvents
  split <;> rfl

theorem count_stopBuild_of_stackCalls {evs : List Event}
    (h : ∀ e ∈ evs, e.isStackCall = true) : evs.count Event.stopBuild = 0 :=
  List.count_eq_zero.mpr (not_mem_of_stackCalls h _ rfl)

/-! ## The shape of a tick, the repeat timer and the wait mask -/

theorem isDispatchCall_of_isStackCall {e : Event} (h : e.isStackCall = true) :
    e.isDispatchCall = true := by
  cases e <;> simp_all [Event.isDispatchCall, Event.isStackCall]

theorem count_eq_zero_of_dispatchCalls {evs : List Event}
    (h : ∀ e ∈ evs, e.isDispatchCall = true) (e : Event) (he : e.isDispatchCall = false) :
    evs.count e = 0 := by
  rw [List.count_eq_zero]
  intro hmem
  rw [h e hmem] at he
  exact Bool.noConfusion he

theorem filter_setPct_of_dispatchCalls {evs : List Event}
    (h : ∀ e ∈ evs, e.isDispatchCall = true) :
    evs.filter Event.isSetBuildPercentage = [] := by
  rw [List.filter_eq_nil_iff]
  intro e he
  have := h e he
  cases e <;> simp_all [Event.isSetBuildPercentage, Event.isDispatchCall, Event.isStackCall]

theorem filter_setPct_pollEvents (env : TickEnv) (t : Timeout) :
    (pollEvents env t).filter Event.isSetBuildPercentage = [] := by
  unfold pollEvents
  split <;> rfl

theorem count_reset_pollEvents (env : TickEnv) (t : Timeout) :
    (pollEvents env t).count Event.resetUserInputTimeout = 0 := by
  unfold pollEvents
  split <;> rfl

theorem count_clear_pollEvents (env : TickEnv) (t : Timeout) :
    (pollEvents env t).count Event.clearButtonPress =
      if (t.hasElapsed env.now).2 = true then 1 else 0 := by
  unfold pollEvents
  split <;> rfl

/-- The button `if` chain on a well-formed controller: it returns, makes dispatch
calls only, and leaves the repeat timer alone unless it starts it. -/
theorem dispatchButton_shape (cfg : Config) (env : TickEnv) (button : ButtonName)
    (b : InterfaceBoard) (h : WellFormed cfg b) :
    ∃ b1 d, dispatchButton cfg env button b = some b1 ∧ WellFormed cfg b1 ∧
      b1.trace = b.trace ++ d ∧ (∀ e ∈ d, e.isDispatchCall = true) ∧
      b1.buildPercentage = b.buildPercentage ∧ b1.screen_locked = b.screen_locked ∧
      (d.any Event.isTimeoutStart = false → b1.button_timeout = b.button_timeout) := by
  obtain ⟨top, htop⟩ := current_some cfg b h
  have hfwd : ∃ b1 d, forwardButton cfg env button b = some b1 ∧ WellFormed cfg b1 ∧
      b1.trace = b.trace ++ d ∧ (∀ e ∈ d, e.isDispatchCall = true) ∧
      b1.buildPercentage = b.buildPercentage ∧ b1.screen_locked = b.screen_locked ∧
      (d.any Event.isTimeoutStart = false → b1.button_timeout = b.button_timeout) := by
    by_cases hegg : button = cfg.EGG
    · obtain ⟨b1, hb1, hwf1, hfr, _, _, _, d, hd, hs⟩ := pushScreen_step cfg b.snake b h
      exact ⟨b1, d, by simp [forwardButton, hegg, hb1], hwf1, hd,
        fun e he => isDispatchCall_of_isStackCall (hs e he), hfr.2.2.1, hfr.2.1,
        fun _ => hfr.2.2.2.1⟩
    · have hf := forwardButton_notify cfg env button b top hegg htop
      cases hc : env.continuousButtons top with
      | true =>
        rw [hc] at hf
        refine ⟨_, [.notifyButtonPressed top button, .timeoutStart 100000], hf, h, rfl, ?_,
          rfl, rfl, ?_⟩
        · intro e he
          simp at he
          rcases he with he | he <;> subst he <;> rfl
        · intro hn
          simp [Event.isTimeoutStart] at hn
      | false =>
        rw [hc] at hf
        refine ⟨_, [.notifyButtonPressed top button], hf, h, rfl, ?_, rfl, rfl, ?_⟩
        · intro e he
          simp at he
          subst he
          rfl
        · intro _
          rfl
  by_cases hpass : (1 <<< button) &&& b.waitingMask = 0 ∨ env.isCancelScreen top = true
  · rw [dispatchButton_pass cfg env button b top htop hpass]
    exact hfwd
  · have hbit : (1 <<< button) &&& b.waitingMask ≠ 0 := fun hh => hpass (Or.inl hh)
    have hc : env.isCancelScreen top = false := by
      cases hcc : env.isCancelScreen top
      · rfl
      · exact absurd (Or.inr hcc) hpass
    exact ⟨_, [], dispatchButton_swallow cfg env button b top hbit htop hc, h, by simp,
      by simp, rfl, rfl, fun _ => rfl⟩

/-- The shape of an unlocked tick: the monitor phase, then by pending button
either the `RESET` return, or the button `if` chain followed by
`resetUserInputTimeout`, the timer poll and the redraw, or (no button) the timer
poll and the redraw. -/
theorem unlocked_tick_shape (cfg : Config) (env : TickEnv) (b : InterfaceBoard)
    (hwf : WellFormed cfg b) (hD : 2 ≤ cfg.SCREEN_STACK_DEPTH)
    (hunlocked : b.screen_locked = false) :
    ∃ m e1, monitor cfg env b = some m ∧ WellFormed cfg m ∧ Frame b m ∧
      m.trace = b.trace ++ e1 ∧ (∀ e ∈ e1, e.isStackCall = true) ∧
      (env.pending = some cfg.RESET →
        doUpdate cfg env b = some (emit .stopBuild (emit .getButton m))) ∧
      (env.pending = none → ∃ top, current m = some top ∧
        doUpdate cfg env b = some
          { m with button_timeout := pollTimer env m.button_timeout,
                   trace := m.trace ++ (.getButton :: (pollEvents env m.button_timeout ++
                     [.setBuildPercentage top m.buildPercentage, .update top false])) }) ∧
      (∀ button, env.pending = some button → button ≠ cfg.RESET →
        ∃ b1 d top, WellFormed cfg b1 ∧ current b1 = some top ∧
          b1.trace = m.trace ++ (.getButton :: d) ∧ (∀ e ∈ d, e.isDispatchCall = true) ∧
          b1.buildPercentage = m.buildPercentage ∧ b1.screen_locked = m.screen_locked ∧
          (d.any Event.isTimeoutStart = false → b1.button_timeout = m.button_timeout) ∧
          doUpdate cfg env b = some
            { b1 with button_timeout := pollTimer env b1.button_timeout,
                      trace := b1.trace ++ (.resetUserInputTimeout ::
                        (pollEvents env b1.button_timeout ++
                          [.setBuildPercentage top b1.buildPercentage,
                           .update top false])) }) := by
  obtain ⟨m, hm, ⟨hwfm, hfr, e1, he1, hs1⟩, _⟩ := monitor_step cfg env b hwf hD
  have hlock : m.screen_locked = false := hfr.2.1.trans hunlocked
  have hdo : doUpdate cfg env b = router cfg env m := by
    simp only [doUpdate, hm, Option.some_bind]
  refine ⟨m, e1, hm, hwfm, hfr, he1, hs1, ?_, ?_, ?_⟩
  · intro hp
    rw [hdo]
    exact router_reset cfg env m hlock hp
  · intro hp
    obtain ⟨top, htop⟩ := current_some cfg m hwfm
    refine ⟨top, htop, ?_⟩
    rw [hdo, router_idle cfg env m hlock hp,
      finishTick_eq env (emit .getButton m) top htop]
    simp [emit]
  · intro button hp hr
    obtain ⟨b1, d, hb1, hwf1, htr, hd, hpct, hlk, htm⟩ :=
      dispatchButton_shape cfg env button (emit .getButton m) hwfm
    obtain ⟨top, htop⟩ := current_some cfg b1 hwf1
    refine ⟨b1, d, top, hwf1, htop, by simpa [emit] using htr, hd, hpct, hlk, htm, ?_⟩
    rw [hdo, router_button cfg env m button hlock hp hr, hb1]
    simp only [Option.some_bind]
    rw [finishTick_eq env (emit .resetUserInputTimeout b1) top htop]
    simp [emit]

theorem count_eq_zero_of_stackCalls {evs : List Event}
    (h : ∀ e ∈ evs, e.isStackCall = true) (e : Event) (he : e.isStackCall = false) :
    evs.count e = 0 :=
  List.count_eq_zero.mpr (not_mem_of_stackCalls h e he)

theorem filter_setPct_of_stackCalls {evs : List Event}
    (h : ∀ e ∈ evs, e.isStackCall = true) : evs.filter Event.isSetBuildPercentage = [] :=
  filter_setPct_of_dispatchCalls fun e he => isDispatchCall_of_isStackCall (h e he)

theorem setBuildPercentage_lt (p : Nat) (b : InterfaceBoard) (hp : p < 100) :
    setBuildPercentage p b = { b with buildPercentage := p } := by
  have h1 : p % 256 = p := Nat.mod_eq_of_lt (by omega)
  simp [setBuildPercentage, h1, hp]

theorem hasElapsed_repeatTimer (armed : Bool) (since now : Nat) :
    ((repeatTimer armed since).hasElapsed now).2 = (armed && decide (100000 ≤ now - since)) := by
  unfold Timeout.hasElapsed repeatTimer
  cases armed <;> by_cases h : 100000 ≤ now - since <;> simp [h]

theorem pollTimer_repeatTimer (env : TickEnv) (armed : Bool) (since : Nat) :
    pollTimer env (repeatTimer armed since) =
      repeatTimer (armed && !decide (100000 ≤ env.now - since)) since := by
  unfold pollTimer Timeout.hasElapsed Timeout.clear repeatTimer
  cases armed <;> by_cases h : 100000 ≤ env.now - since <;> simp [h]

/-- One tick that does not start the repeat timer, on an unlocked controller whose
repeat timer is `repeatTimer armed since`: the timer is cleared, with one
`clearButtonPress` call, exactly when it is armed and the tick is an
`elapsedPoll`. -/
theorem norearm_tick_timer (cfg : Config) (env : TickEnv) (b : InterfaceBoard)
    (armed : Bool) (since : Nat) (hwf : WellFormed cfg b)
    (hD : 2 ≤ cfg.SCREEN_STACK_DEPTH) (hunlocked : b.screen_locked = false)
    (htimer : b.button_timeout = repeatTimer armed since) :
    ∃ b' evs, doUpdate cfg env b = some b' ∧ WellFormed cfg b' ∧
      b'.screen_locked = false ∧ b'.trace = b.trace ++ evs ∧
      (evs.any Event.isTimeoutStart = false →
        b'.button_timeout = repeatTimer (armed && !elapsedPoll cfg since env) since ∧
        evs.count Event.clearButtonPress =
          (if (armed && elapsedPoll cfg since env) = true then 1 else 0)) := by
  obtain ⟨m, e1, _, hwfm, hfr, he1, hs1, hreset, hnone, hpress⟩ :=
    unlocked_tick_shape cfg env b hwf hD hunlocked
  have hlock : m.screen_locked = false := hfr.2.1.trans hunlocked
  have htm : m.button_timeout = repeatTimer armed since := hfr.2.2.2.1.trans htimer
  have hz := count_eq_zero_of_stackCalls hs1 Event.clearButtonPress rfl
  cases hp : env.pending with
  | none =>
    obtain ⟨top, _, hdo⟩ := hnone hp
    refine ⟨_, e1 ++ (.getButton :: (pollEvents env m.button_timeout ++
      [.setBuildPercentage top m.buildPercentage, .update top false])), hdo, hwfm, hlock,
      by simp [he1], ?_⟩
    intro _
    constructor
    · simp [htm, pollTimer_repeatTimer, elapsedPoll, hp]
    · simp [List.count_append, List.count_cons, hz, count_clear_pollEvents, htm,
        hasElapsed_repeatTimer, elapsedPoll, hp]
  | some button =>
    by_cases hr : button = cfg.RESET
    · subst hr
      refine ⟨_, e1 ++ [.getButton, .stopBuild], hreset hp, hwfm, hlock,
        by simp [emit, he1], ?_⟩
      intro _
      constructor
      · simp [emit, htm, elapsedPoll, hp]
      · simp [List.count_append, List.count_cons, hz, elapsedPoll, hp]
    · obtain ⟨b1, d, top, hwf1, _, htr, hd, _, hlk1, htm1, hdo⟩ := hpress button hp hr
      have hzd := count_eq_zero_of_dispatchCalls hd Event.clearButtonPress rfl
      refine ⟨_, e1 ++ (.getButton :: d) ++ (.resetUserInputTimeout ::
        (pollEvents env b1.button_timeout ++
          [.setBuildPercentage top b1.buildPercentage, .update top false])), hdo, hwf1,
        hlk1.trans hlock, by simp [htr, he1], ?_⟩
      intro hq
      have hdq : d.any Event.isTimeoutStart = false := by
        simp only [List.any_append, List.any_cons, Bool.or_eq_false_iff] at hq
        exact hq.1.2.2
      have htb : b1.button_timeout = repeatTimer armed since := (htm1 hdq).trans htm
      have hne : env.pending ≠ some cfg.RESET := by
        rw [hp]
        intro h
        exact hr (Option.some.inj h)
      constructor
      · simp [htb, pollTimer_repeatTimer, elapsedPoll, hne]
      · simp [List.count_append, List.count_cons, hz, hzd, count_clear_pollEvents, htb,
          hasElapsed_repeatTimer, elapsedPoll, hne]

/-- A stack operation leaves the repeat timer and the lock alone and makes no
`clearButtonPress` call. -/
theorem stackStep_timer {cfg : Config} {b b' : InterfaceBoard} (armed : Bool) (since : Nat)
    (h : StackStep cfg b b') (hunlocked : b.screen_locked = false)
    (htimer : b.button_timeout = repeatTimer armed since) :
    ∃ evs, WellFormed cfg b' ∧ b'.screen_locked = false ∧ b'.trace = b.trace ++ evs ∧
      b'.button_timeout = repeatTimer (armed && !false) since ∧
      evs.count Event.clearButtonPress = (if (armed && false) = true then 1 else 0) := by
  obtain ⟨hwf, hfr, _, _, _, evs, he, hs⟩ := h
  refine ⟨evs, hwf, hfr.2.1.trans hunlocked, he, ?_, ?_⟩
  · rw [hfr.2.2.2.1, htimer]
    simp
  · simpa using count_eq_zero_of_stackCalls hs Event.clearButtonPress rfl

/-- One operation that does not start the repeat timer, on an unlocked controller
whose repeat timer is `repeatTimer armed since`. -/
theorem norearm_step_timer (cfg : Config) (op : Op) (b : InterfaceBoard)
    (armed : Bool) (since : Nat) (hwf : WellFormed cfg b)
    (hD : 2 ≤ cfg.SCREEN_STACK_DEPTH) (hunlocked : b.screen_locked = false)
    (htimer : b.button_timeout = repeatTimer armed since) :
    ∃ b' evs, step cfg op b = some b' ∧ WellFormed cfg b' ∧
      b'.screen_locked = false ∧ b'.trace = b.trace ++ evs ∧
      (evs.any Event.isTimeoutStart = false →
        b'.button_timeout = repeatTimer (armed && !elapsedPollOp cfg since op) since ∧
        evs.count Event.clearButtonPress =
          (if (armed && elapsedPollOp cfg since op) = true then 1 else 0)) := by
  cases op with
  | pushScreen s =>
    obtain ⟨b', h1, h2⟩ := pushScreen_step cfg s b hwf
    obtain ⟨evs, h3, h4, h5, h6, h7⟩ := stackStep_timer armed since h2 hunlocked htimer
    exact ⟨b', evs, h1, h3, h4, h5, fun _ => ⟨h6, h7⟩⟩
  | pushNoUpdate s =>
    obtain ⟨b', h1, h2⟩ := pushNoUpdate_step cfg s b hwf
    obtain ⟨evs, h3, h4, h5, h6, h7⟩ := stackStep_timer armed since h2 hunlocked htimer
    exact ⟨b', evs, h1, h3, h4, h5, fun _ => ⟨h6, h7⟩⟩
  | popScreen =>
    obtain ⟨b', h1, h2, _⟩ := popScreen_step cfg b hwf
    obtain ⟨evs, h3, h4, h5, h6, h7⟩ := stackStep_timer armed since h2 hunlocked htimer
    exact ⟨b', evs, h1, h3, h4, h5, fun _ => ⟨h6, h7⟩⟩
  | pop2Screens =>
    obtain ⟨b', h1, h2⟩ := pop2Screens_step cfg b hwf
    obtain ⟨evs, h3, h4, h5, h6, h7⟩ := stackStep_timer armed since h2 hunlocked htimer
    exact ⟨b', evs, h1, h3, h4, h5, fun _ => ⟨h6, h7⟩⟩
  | doUpdate env => exact norearm_tick_timer cfg env b armed since hwf hD hunlocked htimer

theorem armed_after_two (a e r : Bool) : (a && !e && !r) = (a && !(e || r)) := by
  cases a <;> cases e <;> cases r <;> rfl

theorem clears_add (a e r : Bool) :
    ((if (a && e) = true then 1 else 0) + if (a && !e && r) = true then 1 else 0) =
      if (a && (e || r)) = true then 1 else (0 : Nat) := by
  cases a <;> cases e <;> cases r <;> rfl

/-- A run of operations that do not start the repeat timer, on an unlocked
controller whose repeat timer is `repeatTimer armed since`: the run returns,
`clearButtonPress` is called once if the timer is armed and some tick is an
`elapsedPoll`, and not at all otherwise. -/
theorem norearm_run_timer (cfg : Config) (hD : 2 ≤ cfg.SCREEN_STACK_DEPTH) (since : Nat)
    (ops : List Op) (b : InterfaceBoard) (armed : Bool) (hwf : WellFormed cfg b)
    (hunlocked : b.screen_locked = false)
    (htimer : b.button_timeout = repeatTimer armed since)
    (hquiet : noRearmRun cfg ops b = true) :
    ∃ b2 evs, run cfg ops b = some b2 ∧ WellFormed cfg b2 ∧ b2.screen_locked = false ∧
      b2.trace = b.trace ++ evs ∧
      b2.button_timeout = repeatTimer (armed && !ops.any (elapsedPollOp cfg since)) since ∧
      evs.count Event.clearButtonPress =
        (if (armed && ops.any (elapsedPollOp cfg since)) = true then 1 else 0) := by
  induction ops generalizing b armed with
  | nil => exact ⟨b, [], rfl, hwf, hunlocked, by simp, by simp [htimer], by simp⟩
  | cons op ops ih =>
    obtain ⟨b1, ev1, hdo, hwf1, hl1, htr1, hq1⟩ :=
      norearm_step_timer cfg op b armed since hwf hD hunlocked htimer
    simp only [noRearmRun, hdo, htr1, List.drop_left, Bool.and_eq_true,
      Bool.not_eq_true'] at hquiet
    obtain ⟨htm1, hc1⟩ := hq1 hquiet.1
    obtain ⟨b2, ev2, hrun, hwf2, hl2, htr2, htm2, hc2⟩ :=
      ih b1 (armed && !elapsedPollOp cfg since op) hwf1 hl1 htm1 hquiet.2
    refine ⟨b2, ev1 ++ ev2, ?_, hwf2, hl2, by rw [htr2, htr1, List.append_assoc], ?_, ?_⟩
    · simp [run, hdo, hrun]
    · rw [htm2, List.any_cons, armed_after_two]
    · rw [List.count_append, hc1, hc2, List.any_cons]
      exact clears_add _ _ _

theorem doUpdate_mask (cfg : Config) (env : TickEnv) (b : InterfaceBoard)
    (h : WellFormed cfg b) (hD : 2 ≤ cfg.SCREEN_STACK_DEPTH) :
    ∃ b', doUpdate cfg env b = some b' ∧ WellFormed cfg b' ∧
      (b'.waitingMask = b.waitingMask ∨ b'.waitingMask = 0) := by
  obtain ⟨m, hm, hstep, _⟩ := monitor_step cfg env b h hD
  obtain ⟨b', hb', hr⟩ := router_step cfg env m hstep.1
  refine ⟨b', by simp [doUpdate, hm, hb'], hr.1, ?_⟩
  rcases hr.2.2.2 with h1 | h1
  · exact Or.inl (h1.trans hstep.2.1.1)
  · exact Or.inr h1

theorem step_mask (cfg : Config) (hD : 2 ≤ cfg.SCREEN_STACK_DEPTH) (op : Op)
    (b : InterfaceBoard) (h : WellFormed cfg b) :
    ∃ b', step cfg op b = some b' ∧ WellFormed cfg b' ∧
      (b'.waitingMask = b.waitingMask ∨ b'.waitingMask = 0) := by
  cases op with
  | pushScreen s =>
    obtain ⟨b', h1, h2⟩ := pushScreen_step cfg s b h
    exact ⟨b', h1, h2.1, Or.inl h2.2.1.1⟩
  | pushNoUpdate s =>
    obtain ⟨b', h1, h2⟩ := pushNoUpdate_step cfg s b h
    exact ⟨b', h1, h2.1, Or.inl h2.2.1.1⟩
  | popScreen =>
    obtain ⟨b', h1, h2, _⟩ := popScreen_step cfg b h
    exact ⟨b', h1, h2.1, Or.inl h2.2.1.1⟩
  | pop2Screens =>
    obtain ⟨b', h1, h2⟩ := pop2Screens_step cfg b h
    exact ⟨b', h1, h2.1, Or.inl h2.2.1.1⟩
  | doUpdate env => exact doUpdate_mask cfg env b h hD

theorem run_mask_zero (cfg : Config) (hD : 2 ≤ cfg.SCREEN_STACK_DEPTH) (ops : List Op)
    (b : InterfaceBoard) (h : WellFormed cfg b) (hmask : b.waitingMask = 0) :
    ∃ b', run cfg ops b = some b' ∧ b'.waitingMask = 0 := by
  induction ops generalizing b with
  | nil => exact ⟨b, rfl, hmask⟩
  | cons op ops ih =>
    obtain ⟨b1, h1, hw1, hm1⟩ := step_mask cfg hD op b h
    have hz : b1.waitingMask = 0 := by
      rcases hm1 with h2 | h2
      · exact h2.trans hmask
      · exact h2
    obtain ⟨b2, h2, hm2⟩ := ih b1 hw1 hz
    exact ⟨b2, by simp [run, h1, h2], hm2⟩

/-! ## The claims -/

/-- C1: from the state produced by `init()`, every finite sequence of
`pushScreen`, `pushNoUpdate`, `popScreen`, `pop2Screens` and `doUpdate` ticks
(any host state, pending button and screen answers; `SCREEN_STACK_DEPTH >= 2`)
runs without any access outside `screenStack` and ends with `screenIndex` in
`[0, SCREEN_STACK_DEPTH - 1]`, the array still having `SCREEN_STACK_DEPTH` slots. -/
theorem stack_depth_invariant (cfg : Config) (b0 : InterfaceBoard) (ops : List Op)
    (hD : 2 ≤ cfg.SCREEN_STACK_DEPTH)
    (hlen : b0.screenStack.length = cfg.SCREEN_STACK_DEPTH) :
    ∃ b, (init cfg b0).bind (run cfg ops) = some b ∧
      0 ≤ b.screenIndex ∧ b.screenIndex ≤ (cfg.SCREEN_STACK_DEPTH : Int) - 1 ∧
      b.screenStack.length = cfg.SCREEN_STACK_DEPTH := by
  obtain ⟨b1, h1, hw1, _⟩ := init_step cfg b0 hlen (by omega)
  obtain ⟨b2, h2, hw2⟩ := run_wellFormed cfg hD ops b1 hw1
  refine ⟨b2, by simp [h1, h2], hw2.2.1, ?_, hw2.1⟩
  have := hw2.2.2
  omega

/-- Witness for C1: a run over four slots that fills the stack, starts a build
behind the current screen at full depth, ends the build and pops twice. -/
theorem stack_depth_invariant_witness :
    ∃ b, (init cfg4 (board0 4)).bind (run cfg4
        [.pushScreen 5, .pushNoUpdate 6, .pushScreen 7, .pushScreen 8, .doUpdate behindEnv,
         .doUpdate (quietEnv (.other 0)), .popScreen, .pop2Screens]) = some b ∧
      0 ≤ b.screenIndex ∧ b.screenIndex ≤ (cfg4.SCREEN_STACK_DEPTH : Int) - 1 ∧
      b.screenStack.length = cfg4.SCREEN_STACK_DEPTH :=
  stack_depth_invariant cfg4 (board0 4) _ (by decide) (by decide)

/-- C2, the code at the failing input: after `init()` over four slots, one tick
that starts a build while `command::isWaiting()` holds puts the build screen (20)
into slot 0 and moves the main screen (10) to slot 1, so slot 0 no longer holds
the main screen. -/
theorem root_replaced_by_push_behind :
    ∃ b, (init cfg4 (board0 4)).bind (run cfg4 [.doUpdate behindEnv]) = some b ∧
      b.screenStack = [20, 10, 0, 0] ∧ b.screenIndex = 1 ∧ b.mainScreen = 10 ∧
      stackRead b.screenStack 0 = some b.buildScreen ∧
      stackRead b.screenStack 0 ≠ some b.mainScreen :=
  ⟨_, rfl, rfl, rfl, rfl, rfl, by decide⟩

/-- Every other path keeps the root: from the state produced by `init()`, a
sequence of `pushScreen`, `pushNoUpdate`, `popScreen`, `pop2Screens` and
`doUpdate` ticks in which no tick takes the push-behind branch while the current
screen is at index 0 or the stack is full leaves the main screen in slot 0. -/
theorem root_kept_unless_pushed_behind (cfg : Config) (b0 b1 : InterfaceBoard)
    (ops : List Op) (hD : 2 ≤ cfg.SCREEN_STACK_DEPTH)
    (hlen : b0.screenStack.length = cfg.SCREEN_STACK_DEPTH)
    (hinit : init cfg b0 = some b1) (hsafe : rootSafeRun cfg ops b1 = true) :
    ∃ b, (init cfg b0).bind (run cfg ops) = some b ∧
      stackRead b.screenStack 0 = some b0.mainScreen ∧ b.mainScreen = b0.mainScreen := by
  obtain ⟨b1', h1, hw1, hroot, hmain⟩ := init_step cfg b0 hlen (by omega)
  have hb : b1' = b1 := Option.some.inj (h1.symm.trans hinit)
  subst hb
  obtain ⟨b2, h2, hm2, hr2⟩ := run_root cfg hD ops b1' hw1 hsafe
  exact ⟨b2, by simp [h1, h2], hr2.trans hroot, hm2.trans hmain⟩

/-- An instance of `root_kept_unless_pushed_behind`: a run in which the build
screen is inserted behind a waiting screen at index 1, and the stack is later
unwound. -/
theorem root_kept_unless_pushed_behind_witness :
    ∃ b, (init cfg4 (board0 4)).bind (run cfg4
        [.pushScreen 5, .doUpdate waitingEnv, .popScreen, .doUpdate (quietEnv (.other 0)),
         .pop2Screens]) = some b ∧
      stackRead b.screenStack 0 = some (board0 4).mainScreen ∧
      b.mainScreen = (board0 4).mainScreen :=
  root_kept_unless_pushed_behind cfg4 (board0 4) board1 _ (by decide) (by decide)
    (by decide) (by decide)

/-- C3: on a full stack (`screenIndex = SCREEN_STACK_DEPTH - 1`) `pushScreen(s)` and
`pushNoUpdate(s)` change neither `screenIndex` nor any slot, and the previous top
is the screen that gets `reset()` (and, for `pushScreen`, the forced `update()`);
with room (`screenIndex < SCREEN_STACK_DEPTH - 1`) both add one to `screenIndex`,
store `s` in the new top slot, leave every other slot as it was, and end in the
same index and stack. Stated for a controller whose array has
`SCREEN_STACK_DEPTH` slots and whose index is at least `-1` (the value `init()`
sets before its push). -/
theorem push_overflow_refused_and_room (cfg : Config) (b : InterfaceBoard) (s : Screen)
    (hlen : b.screenStack.length = cfg.SCREEN_STACK_DEPTH) (hlo : -1 ≤ b.screenIndex) :
    (b.screenIndex = (cfg.SCREEN_STACK_DEPTH : Int) - 1 → 0 ≤ b.screenIndex →
      ∃ top, current b = some top ∧
        pushScreen cfg s b = some (emit (.update top true) (emit (.reset top) b)) ∧
        pushNoUpdate cfg s b = some (emit (.reset top) b) ∧
        (emit (.update top true) (emit (.reset top) b)).screenIndex = b.screenIndex ∧
        (emit (.update top true) (emit (.reset top) b)).screenStack = b.screenStack ∧
        (emit (.reset top) b).screenIndex = b.screenIndex ∧
        (emit (.reset top) b).screenStack = b.screenStack) ∧
    (b.screenIndex < (cfg.SCREEN_STACK_DEPTH : Int) - 1 →
      ∃ b1 b2, pushScreen cfg s b = some b1 ∧ pushNoUpdate cfg s b = some b2 ∧
        b1.screenIndex = b.screenIndex + 1 ∧ current b1 = some s ∧
        (∀ j : Int, j ≠ b.screenIndex + 1 →
          stackRead b1.screenStack j = stackRead b.screenStack j) ∧
        b2.screenIndex = b1.screenIndex ∧ b2.screenStack = b1.screenStack ∧
        b1.trace = b.trace ++ [.reset s, .update s true] ∧
        b2.trace = b.trace ++ [.reset s]) := by
  constructor
  · intro hfull h0
    obtain ⟨top, htop⟩ := current_some cfg b ⟨hlen, h0, by omega⟩
    have hnot : ¬ b.screenIndex < (cfg.SCREEN_STACK_DEPTH : Int) - 1 := by omega
    exact ⟨top, htop, pushScreen_full cfg s top b hnot htop,
      pushNoUpdate_full cfg s top b hnot htop, rfl, rfl, rfl, rfl⟩
  · intro hroom
    refine ⟨_, _, pushScreen_room cfg s b hlen hroom hlo,
      pushNoUpdate_room cfg s b hlen hroom hlo,
      rfl, ?_, ?_, rfl, rfl, by simp [emit], by simp [emit]⟩
    · exact stackRead_set_same b.screenStack (b.screenIndex + 1) s (by omega) (by omega)
    · intro j hj
      simp only [emit]
      by_cases hj0 : 0 ≤ j
      · exact stackRead_set_other _ _ _ _ (by omega) hj0 (fun h => hj h.symm)
      · have hneg : j < 0 := by omega
        simp [stackRead, hneg]

/-- Witness for C3: the full case on `fullBoard` and the room case on `board1`. -/
theorem push_overflow_refused_and_room_witness :
    (∃ top, current fullBoard = some top ∧
        pushScreen cfg4 9 fullBoard =
          some (emit (.update top true) (emit (.reset top) fullBoard)) ∧
        pushNoUpdate cfg4 9 fullBoard = some (emit (.reset top) fullBoard) ∧
        (emit (.update top true) (emit (.reset top) fullBoard)).screenIndex
          = fullBoard.screenIndex ∧
        (emit (.update top true) (emit (.reset top) fullBoard)).screenStack
          = fullBoard.screenStack ∧
        (emit (.reset top) fullBoard).screenIndex = fullBoard.screenIndex ∧
        (emit (.reset top) fullBoard).screenStack = fullBoard.screenStack) ∧
      ∃ b1 b2, pushScreen cfg4 9 board1 = some b1 ∧ pushNoUpdate cfg4 9 board1 = some b2 ∧
        b1.screenIndex = board1.screenIndex + 1 ∧ current b1 = some 9 ∧
        (∀ j : Int, j ≠ board1.screenIndex + 1 →
          stackRead b1.screenStack j = stackRead board1.screenStack j) ∧
        b2.screenIndex = b1.screenIndex ∧ b2.screenStack = b1.screenStack ∧
        b1.trace = board1.trace ++ [.reset 9, .update 9 true] ∧
        b2.trace = board1.trace ++ [.reset 9] :=
  ⟨(push_overflow_refused_and_room cfg4 fullBoard 9 (by decide) (by decide)).1
      (by decide) (by decide),
   (push_overflow_refused_and_room cfg4 board1 9 (by decide) (by decide)).2 (by decide)⟩

/-- C4, refuted as stated: over two slots, `init()` then `pushScreen(5)` reaches a
full stack with screen 5 on top at index 1; `pushScreen(6)` is refused and the
`popScreen()` that follows removes screen 5, ending at index 0 with the main
screen (10) on top. -/
theorem push_pop_on_full_stack_drops_top :
    ∃ b b', Reachable cfg2 b ∧ current b = some 5 ∧ b.screenIndex = 1 ∧
      (pushScreen cfg2 6 b).bind popScreen = some b' ∧
      current b' = some 10 ∧ b'.screenIndex = 0 ∧
      current b' ≠ current b ∧ b'.screenIndex ≠ b.screenIndex :=
  ⟨_, _, ⟨board0 2, [.pushScreen 5], rfl, rfl⟩, rfl, rfl, rfl, rfl, rfl, by decide,
    by decide⟩

/-- C4, amended: for every well-formed stack state (every reachable one is) that
is not full (`screenIndex < SCREEN_STACK_DEPTH - 1`) and every screen `s`,
`pushScreen(s)` followed by `popScreen()` leaves the screen that was on top before
the push on top again, with `screenIndex` at its value before the push; the calls
made are `reset` and forced `update` on `s`, `pop` on `s`, and a forced `update`
on the restored top. -/
theorem push_pop_round_trip (cfg : Config) (b : InterfaceBoard) (s : Screen)
    (hwf : WellFormed cfg b) (hroom : b.screenIndex < (cfg.SCREEN_STACK_DEPTH : Int) - 1) :
    ∃ top b1 b2, current b = some top ∧ pushScreen cfg s b = some b1 ∧
      popScreen b1 = some b2 ∧ current b2 = some top ∧ b2.screenIndex = b.screenIndex ∧
      (∀ j : Int, j ≠ b.screenIndex + 1 →
        stackRead b2.screenStack j = stackRead b.screenStack j) ∧
      b2.trace = b.trace ++ [.reset s, .update s true, .pop s, .update top true] := by
  obtain ⟨top, htop⟩ := current_some cfg b hwf
  obtain ⟨hlen, h0, h1⟩ := hwf
  have hpush := pushScreen_room cfg s b hlen hroom (by omega)
  have hread : ∀ j : Int, j ≠ b.screenIndex + 1 →
      stackRead (b.screenStack.set (b.screenIndex + 1).toNat s) j = stackRead b.screenStack j := by
    intro j hj
    by_cases hj0 : 0 ≤ j
    · exact stackRead_set_other _ _ _ _ (by omega) hj0 (fun h => hj h.symm)
    · have hneg : j < 0 := by omega
      simp [stackRead, hneg]
  have htop1 : stackRead (b.screenStack.set (b.screenIndex + 1).toNat s) (b.screenIndex + 1)
      = some s := stackRead_set_same b.screenStack (b.screenIndex + 1) s (by omega) (by omega)
  have hbelow : stackRead (b.screenStack.set (b.screenIndex + 1).toNat s) b.screenIndex
      = some top := by
    rw [hread b.screenIndex (by omega)]
    exact htop
  have hpop := popScreen_above
    (emit (.update s true) (emit (.reset s)
      { b with screenIndex := b.screenIndex + 1,
               screenStack := b.screenStack.set (b.screenIndex + 1).toNat s }))
    s top (by simp only [emit]; omega) (by simpa [current, emit] using htop1)
    (by simpa [emit] using hbelow)
  refine ⟨top, _, _, htop, hpush, hpop, ?_, ?_, ?_, ?_⟩
  · simpa [current, emit] using hbelow
  · simp [emit]
  · intro j hj
    simpa [emit] using hread j hj
  · simp [emit]

/-- Witness for amended C4: the round trip on `board1`. -/
theorem push_pop_round_trip_witness :
    ∃ top b1 b2, current board1 = some top ∧ pushScreen cfg4 9 board1 = some b1 ∧
      popScreen b1 = some b2 ∧ current b2 = some top ∧ b2.screenIndex = board1.screenIndex ∧
      (∀ j : Int, j ≠ board1.screenIndex + 1 →
        stackRead b2.screenStack j = stackRead board1.screenStack j) ∧
      b2.trace = board1.trace ++ [.reset 9, .update 9 true, .pop 9, .update top true] :=
  push_pop_round_trip cfg4 board1 9 (by decide) (by decide)

/-- C5: at the root (`screenIndex = 0`, array not empty) `popScreen()` and
`pop2Screens()` leave `screenIndex` at 0 and every slot as it was; the root gets
the forced `update()` (after `pop()` for `popScreen`), and repeating either
operation any number of times ends in the same index and stack. -/
theorem pop_at_root_keeps_stack (b : InterfaceBoard) (h0 : b.screenIndex = 0)
    (hne : 0 < b.screenStack.length) :
    ∃ root, current b = some root ∧
      popScreen b = some (emit (.update root true) (emit (.pop root) b)) ∧
      pop2Screens b = some (emit (.update root true) b) ∧
      ∀ n : Nat, ∃ b1 b2, repeatOp popScreen n b = some b1 ∧ b1.screenIndex = 0 ∧
        b1.screenStack = b.screenStack ∧ repeatOp pop2Screens n b = some b2 ∧
        b2.screenIndex = 0 ∧ b2.screenStack = b.screenStack := by
  obtain ⟨root, hroot⟩ := stackRead_some b.screenStack b.screenIndex (by omega) (by omega)
  refine ⟨root, hroot, popScreen_root b root (by omega) hroot,
    pop2Screens_low b root (by omega) hroot, ?_⟩
  intro n
  obtain ⟨b1, h1, h2, h3⟩ := repeat_popScreen_root root n b h0 hroot
  obtain ⟨b2, h4, h5, h6⟩ := repeat_pop2Screens_root root n b h0 hroot
  exact ⟨b1, b2, h1, h2, h3, h4, h5, h6⟩

/-- Witness for C5: popping at the root of `board1`. -/
theorem pop_at_root_keeps_stack_witness :
    ∃ root, current board1 = some root ∧
      popScreen board1 = some (emit (.update root true) (emit (.pop root) board1)) ∧
      pop2Screens board1 = some (emit (.update root true) board1) ∧
      ∀ n : Nat, ∃ b1 b2, repeatOp popScreen n board1 = some b1 ∧ b1.screenIndex = 0 ∧
        b1.screenStack = board1.screenStack ∧ repeatOp pop2Screens n board1 = some b2 ∧
        b2.screenIndex = 0 ∧ b2.screenStack = board1.screenStack :=
  pop_at_root_keeps_stack board1 (by decide) (by decide)

/-- C6, refuted as stated: over four slots, `init()` then `pushScreen(5)` reaches
index 1, where `pop2Screens()` leaves the index at 1, not at `max(1 - 2, 0) = 0`. -/
theorem pop2Screens_keeps_index_one :
    ∃ b b', Reachable cfg4 b ∧ b.screenIndex = 1 ∧ pop2Screens b = some b' ∧
      b'.screenIndex = 1 ∧ b'.screenIndex ≠ max (b.screenIndex - 2) 0 :=
  ⟨_, _, ⟨board0 4, [.pushScreen 5], rfl, rfl⟩, rfl, rfl, rfl, by decide⟩

/-- C6, amended: for every well-formed state with `screenIndex = i`,
`pop2Screens()` ends with `screenIndex = i - 2` when `i >= 2` and leaves
`screenIndex = i` when `i <= 1` (it pops two screens or none); it changes no slot,
and its only call is the forced `update()` on the resulting top (no `pop()`). -/
theorem pop2Screens_two_or_none (cfg : Config) (b : InterfaceBoard)
    (hwf : WellFormed cfg b) :
    ∃ top b', pop2Screens b = some b' ∧
      b'.screenIndex = (if 2 ≤ b.screenIndex then b.screenIndex - 2 else b.screenIndex) ∧
      b'.screenStack = b.screenStack ∧ current b' = some top ∧
      b'.trace = b.trace ++ [.update top true] := by
  obtain ⟨top, htop⟩ := current_some cfg b hwf
  obtain ⟨hlen, h0, h1⟩ := hwf
  by_cases hgt : 1 < b.screenIndex
  · obtain ⟨x, hx⟩ := stackRead_some b.screenStack (b.screenIndex - 2) (by omega) (by omega)
    have h2 : 2 ≤ b.screenIndex := by omega
    exact ⟨x, _, pop2Screens_high b x hgt hx, by simp [emit, h2], rfl,
      by simpa [current, emit] using hx, by simp [emit]⟩
  · have h2 : ¬ 2 ≤ b.screenIndex := by omega
    exact ⟨top, _, pop2Screens_low b top (by omega) htop, by simp [emit, h2], rfl,
      by simpa [current, emit] using htop, by simp [emit]⟩

/-- Witness for amended C6: `pop2Screens()` on the full stack `fullBoard`. -/
theorem pop2Screens_two_or_none_witness :
    ∃ top b', pop2Screens fullBoard = some b' ∧
      b'.screenIndex = (if 2 ≤ fullBoard.screenIndex then fullBoard.screenIndex - 2
        else fullBoard.screenIndex) ∧
      b'.screenStack = fullBoard.screenStack ∧ current b' = some top ∧
      b'.trace = fullBoard.trace ++ [.update top true] :=
  pop2Screens_two_or_none cfg4 fullBoard (by decide)

/-- C7: with `building` false and `screenIndex = i < SCREEN_STACK_DEPTH - 1`, the
monitor phase of a tick whose host state is one of the three building states and
in which the current screen reports `screenWaiting()` or `command::isWaiting()`
holds ends with `screenIndex = i + 1`, the previous top on top (slot `i + 1`), the
build screen in slot `i`, every other slot as it was, `building` true, and
`reset()` on the build screen as its only call (no `update()`). -/
theorem push_behind_placement (cfg : Config) (env : TickEnv) (b : InterfaceBoard)
    (top : Screen) (hwf : WellFormed cfg b) (hb : b.building = false)
    (hroom : b.screenIndex < (cfg.SCREEN_STACK_DEPTH : Int) - 1)
    (hhost : env.hostState = .HOST_STATE_BUILDING ∨
      env.hostState = .HOST_STATE_BUILDING_FROM_SD ∨
      env.hostState = .HOST_STATE_BUILDING_ONBOARD)
    (htop : current b = some top)
    (hw : env.screenWaiting top = true ∨ env.commandWaiting = true) :
    ∃ m, monitor cfg env b = some m ∧ m.screenIndex = b.screenIndex + 1 ∧
      current m = some top ∧ stackRead m.screenStack b.screenIndex = some b.buildScreen ∧
      (∀ j : Int, j ≠ b.screenIndex → j ≠ b.screenIndex + 1 →
        stackRead m.screenStack j = stackRead b.screenStack j) ∧
      m.building = true ∧ m.trace = b.trace ++ [.reset b.buildScreen] := by
  have hw' : (env.screenWaiting top || env.commandWaiting) = true := by
    rcases hw with h | h <;> simp [h]
  obtain ⟨hlen, h0, h1⟩ := hwf
  have key : ∀ b' : InterfaceBoard, b'.screenStack = b.screenStack →
      b'.screenIndex = b.screenIndex → b'.buildScreen = b.buildScreen →
      b'.trace = b.trace → b'.building = false →
      ∃ m, buildStart cfg env b' = some m ∧ m.screenIndex = b.screenIndex + 1 ∧
        current m = some top ∧ stackRead m.screenStack b.screenIndex = some b.buildScreen ∧
        (∀ j : Int, j ≠ b.screenIndex → j ≠ b.screenIndex + 1 →
          stackRead m.screenStack j = stackRead b.screenStack j) ∧
        m.building = true ∧ m.trace = b.trace ++ [.reset b.buildScreen] := by
    intro b' hs hi hbs htr hb'
    have hwf' : WellFormed cfg b' := ⟨by rw [hs]; exact hlen, by rw [hi]; exact h0,
      by rw [hi]; exact h1⟩
    have htop' : current b' = some top := by
      simp only [current, hs, hi]
      exact htop
    refine ⟨_, buildStart_behind_room cfg env b' top hwf' hb' (by rw [hi]; exact hroom) htop' hw',
      ?_, ?_, ?_, ?_, rfl, ?_⟩
    · simp [hi]
    · simp only [current, hs, hi]
      rw [stackRead_set_other _ _ _ _ h0 (by omega) (by omega)]
      exact stackRead_set_same _ _ _ (by omega) (by omega)
    · simp only [hs, hi, hbs]
      exact stackRead_set_same _ _ _ h0 (by simp only [List.length_set]; omega)
    · intro j hj1 hj2
      simp only [hs, hi]
      by_cases hj0 : 0 ≤ j
      · rw [stackRead_set_other _ _ _ _ h0 hj0 (fun h => hj1 h.symm),
          stackRead_set_other _ _ _ _ (by omega) hj0 (fun h => hj2 h.symm)]
      · have hneg : j < 0 := by omega
        simp [stackRead, hneg]
    · simp [htr, hbs]
  rcases hhost with h | h | h
  · simp only [monitor, h]
    exact key b rfl rfl rfl rfl hb
  · simp only [monitor, h]
    exact key b rfl rfl rfl rfl hb
  · simp only [monitor, h]
    exact key { b with onboard_build := true } rfl rfl rfl rfl hb

/-- Witness for C7: a build starting from an SD card while the message screen on
`messageBoard` is waiting. -/
theorem push_behind_placement_witness :
    ∃ m, monitor cfg4 { waitingEnv with hostState := .HOST_STATE_BUILDING_FROM_SD }
        messageBoard = some m ∧
      m.screenIndex = messageBoard.screenIndex + 1 ∧
      current m = some 30 ∧
      stackRead m.screenStack messageBoard.screenIndex = some messageBoard.buildScreen ∧
      (∀ j : Int, j ≠ messageBoard.screenIndex → j ≠ messageBoard.screenIndex + 1 →
        stackRead m.screenStack j = stackRead messageBoard.screenStack j) ∧
      m.building = true ∧ m.trace = messageBoard.trace ++ [.reset messageBoard.buildScreen] :=
  push_behind_placement cfg4 { waitingEnv with hostState := .HOST_STATE_BUILDING_FROM_SD }
    messageBoard 30 (by decide) (by decide) (by decide) (Or.inr (Or.inl rfl)) (by decide)
    (Or.inl rfl)

/-- C8: in an unlocked tick whose pending button is not `RESET`, has its bit set
in `waitingMask`, and finds a current screen that is not a cancel screen, the
router clears `waitingMask` to 0, leaves the stack as the monitor phase left it
(no diagnostic screen is pushed), and its calls are exactly `getButton`,
`resetUserInputTimeout`, the repeat-timer poll, `setBuildPercentage` and
`update`: over the whole tick no screen gets `notifyButtonPressed` and the repeat
timer is not started. -/
theorem wait_gate_swallows_press (cfg : Config) (env : TickEnv) (b : InterfaceBoard)
    (button : ButtonName) (hwf : WellFormed cfg b) (hD : 2 ≤ cfg.SCREEN_STACK_DEPTH)
    (hunlocked : b.screen_locked = false) (hpending : env.pending = some button)
    (hreset : button ≠ cfg.RESET) (hbit : (1 <<< button) &&& b.waitingMask ≠ 0)
    (hcancel : ∀ m top, monitor cfg env b = some m → current m = some top →
      env.isCancelScreen top = false) :
    ∃ m top b' evs, monitor cfg env b = some m ∧ current m = some top ∧
      doUpdate cfg env b = some b' ∧ b'.waitingMask = 0 ∧
      b'.screenStack = m.screenStack ∧ b'.screenIndex = m.screenIndex ∧
      b'.trace = m.trace ++ ([.getButton, .resetUserInputTimeout] ++
        pollEvents env b.button_timeout ++
        [.setBuildPercentage top b.buildPercentage, .update top false]) ∧
      b'.trace = b.trace ++ evs ∧
      (∀ s k, Event.notifyButtonPressed s k ∉ evs) ∧
      (∀ d, Event.timeoutStart d ∉ evs) := by
  obtain ⟨m, hm, ⟨hwfm, hfr, e1, he1, hs1⟩, _⟩ := monitor_step cfg env b hwf hD
  obtain ⟨top, htop⟩ := current_some cfg m hwfm
  obtain ⟨hmask, hlock, hpct, htimer, _⟩ := hfr
  have hrouter := router_swallow cfg env m button top (hlock.trans hunlocked) hpending hreset
    (by rw [hmask]; exact hbit) htop (hcancel m top hm htop)
  have hdo := hrouter
  rw [← show doUpdate cfg env b = router cfg env m from by
    simp only [doUpdate, hm, Option.some_bind]] at hdo
  refine ⟨m, top, _, e1 ++ ([.getButton, .resetUserInputTimeout] ++
      pollEvents env b.button_timeout ++
      [.setBuildPercentage top b.buildPercentage, .update top false]), hm, htop,
    hdo, rfl, rfl, rfl, ?_, ?_, ?_, ?_⟩
  · simp [htimer, hpct]
  · simp [htimer, hpct, he1]
  · intro s k hmem
    rcases List.mem_append.mp hmem with h | h
    · exact not_mem_of_stackCalls hs1 (.notifyButtonPressed s k) rfl h
    · unfold pollEvents at h
      split at h <;> simp at h
  · intro d hmem
    rcases List.mem_append.mp hmem with h | h
    · exact not_mem_of_stackCalls hs1 (.timeoutStart d) rfl h
    · unfold pollEvents at h
      split at h <;> simp at h

/-- Witness for C8: button 0 arrives while `gatedBoard` waits for it. -/
theorem wait_gate_swallows_press_witness :
    ∃ m top b' evs, monitor cfg4 (pressEnv 0) gatedBoard = some m ∧ current m = some top ∧
      doUpdate cfg4 (pressEnv 0) gatedBoard = some b' ∧ b'.waitingMask = 0 ∧
      b'.screenStack = m.screenStack ∧ b'.screenIndex = m.screenIndex ∧
      b'.trace = m.trace ++ ([.getButton, .resetUserInputTimeout] ++
        pollEvents (pressEnv 0) gatedBoard.button_timeout ++
        [.setBuildPercentage top gatedBoard.buildPercentage, .update top false]) ∧
      b'.trace = gatedBoard.trace ++ evs ∧
      (∀ s k, Event.notifyButtonPressed s k ∉ evs) ∧ (∀ d, Event.timeoutStart d ∉ evs) :=
  wait_gate_swallows_press cfg4 (pressEnv 0) gatedBoard 0 (by decide) (by decide) (by decide)
    rfl (by decide) (by decide) (fun _ _ _ _ => rfl)

/-- C9: in an unlocked tick whose pending button is neither `RESET` nor `EGG`, if
the button's bit is not set in `waitingMask` or the current screen is a cancel
screen, the current screen gets `notifyButtonPressed(button)`, it is the only
`notifyButtonPressed` call of the tick, and `waitingMask` is unchanged. -/
theorem press_forwarded_to_current_screen (cfg : Config) (env : TickEnv)
    (b : InterfaceBoard) (button : ButtonName) (hwf : WellFormed cfg b)
    (hD : 2 ≤ cfg.SCREEN_STACK_DEPTH) (hunlocked : b.screen_locked = false)
    (hpending : env.pending = some button) (hreset : button ≠ cfg.RESET)
    (hegg : button ≠ cfg.EGG)
    (hpass : (1 <<< button) &&& b.waitingMask = 0 ∨
      ∀ m top, monitor cfg env b = some m → current m = some top →
        env.isCancelScreen top = true) :
    ∃ m top b' evs, monitor cfg env b = some m ∧ current m = some top ∧
      doUpdate cfg env b = some b' ∧ b'.waitingMask = b.waitingMask ∧
      b'.screenStack = m.screenStack ∧ b'.screenIndex = m.screenIndex ∧
      b'.trace = m.trace ++ ([.getButton, .notifyButtonPressed top button] ++
        (if env.continuousButtons top then [.timeoutStart 100000] else []) ++
        [.resetUserInputTimeout] ++
        pollEvents env
          (if env.continuousButtons top then b.button_timeout.start 100000 env.now
           else b.button_timeout) ++
        [.setBuildPercentage top b.buildPercentage, .update top false]) ∧
      b'.trace = b.trace ++ evs ∧
      evs.filter Event.isNotify = [.notifyButtonPressed top button] := by
  obtain ⟨m, hm, ⟨hwfm, hfr, e1, he1, hs1⟩, _⟩ := monitor_step cfg env b hwf hD
  obtain ⟨top, htop⟩ := current_some cfg m hwfm
  obtain ⟨hmask, hlock, hpct, htimer, _⟩ := hfr
  have hpass' : (1 <<< button) &&& m.waitingMask = 0 ∨ env.isCancelScreen top = true := by
    rcases hpass with h | h
    · exact Or.inl (by rw [hmask]; exact h)
    · exact Or.inr (h m top hm htop)
  have hrouter := router_forward cfg env m button top (hlock.trans hunlocked) hpending hreset
    hegg htop hpass'
  have hdo := hrouter
  rw [← show doUpdate cfg env b = router cfg env m from by
    simp only [doUpdate, hm, Option.some_bind]] at hdo
  refine ⟨m, top, _, e1 ++ ([.getButton, .notifyButtonPressed top button] ++
      (if env.continuousButtons top then [.timeoutStart 100000] else []) ++
      [.resetUserInputTimeout] ++
      pollEvents env
        (if env.continuousButtons top then b.button_timeout.start 100000 env.now
         else b.button_timeout) ++
      [.setBuildPercentage top b.buildPercentage, .update top false]), hm, htop,
    hdo, hmask, rfl, rfl, ?_, ?_, ?_⟩
  · simp [htimer, hpct]
  · simp [htimer, hpct, he1]
  · simp only [List.filter_append, filter_isNotify_of_stackCalls hs1,
      filter_isNotify_pollEvents]
    cases env.continuousButtons top <;> simp [Event.isNotify]

/-- Witness for C9: button 0 arrives while `gatedBoard` waits for it and the
current screen is a cancel screen. -/
theorem press_forwarded_to_current_screen_witness :
    ∃ m top b' evs, monitor cfg4 (cancelEnv 0) gatedBoard = some m ∧ current m = some top ∧
      doUpdate cfg4 (cancelEnv 0) gatedBoard = some b' ∧
      b'.waitingMask = gatedBoard.waitingMask ∧
      b'.screenStack = m.screenStack ∧ b'.screenIndex = m.screenIndex ∧
      b'.trace = m.trace ++ ([.getButton, .notifyButtonPressed top 0] ++
        (if (cancelEnv 0).continuousButtons top then [.timeoutStart 100000] else []) ++
        [.resetUserInputTimeout] ++
        pollEvents (cancelEnv 0)
          (if (cancelEnv 0).continuousButtons top then
            gatedBoard.button_timeout.start 100000 (cancelEnv 0).now
           else gatedBoard.button_timeout) ++
        [.setBuildPercentage top gatedBoard.buildPercentage, .update top false]) ∧
      b'.trace = gatedBoard.trace ++ evs ∧
      evs.filter Event.isNotify = [.notifyButtonPressed top 0] :=
  press_forwarded_to_current_screen cfg4 (cancelEnv 0) gatedBoard 0 (by decide) (by decide)
    (by decide) rfl (by decide) (by decide) (Or.inr (fun _ _ _ _ => rfl))

/-- C10: in an unlocked tick whose pending button is `RESET`, the router calls
`host::stopBuild()` once and returns: its calls are exactly `getButton` and
`stopBuild`, and it leaves `waitingMask`, the repeat timer and the stack as they
were after the monitor phase, whatever the mask and the current screen; over the
whole tick there is no `notifyButtonPressed`, `setBuildPercentage`, non-forced
`update`, timer start or timer clear. -/
theorem reset_stops_build_and_returns (cfg : Config) (env : TickEnv) (b : InterfaceBoard)
    (hwf : WellFormed cfg b) (hD : 2 ≤ cfg.SCREEN_STACK_DEPTH)
    (hunlocked : b.screen_locked = false) (hpending : env.pending = some cfg.RESET) :
    ∃ m evs, monitor cfg env b = some m ∧
      doUpdate cfg env b = some (emit .stopBuild (emit .getButton m)) ∧
      (emit .stopBuild (emit .getButton m)).trace = m.trace ++ [.getButton, .stopBuild] ∧
      (emit .stopBuild (emit .getButton m)).waitingMask = b.waitingMask ∧
      (emit .stopBuild (emit .getButton m)).button_timeout = b.button_timeout ∧
      (emit .stopBuild (emit .getButton m)).trace = b.trace ++ evs ∧
      evs.count Event.stopBuild = 1 ∧
      (∀ s k, Event.notifyButtonPressed s k ∉ evs) ∧
      (∀ s p, Event.setBuildPercentage s p ∉ evs) ∧
      (∀ s, Event.update s false ∉ evs) ∧
      (∀ d, Event.timeoutStart d ∉ evs) ∧ Event.timeoutClear ∉ evs ∧
      Event.resetUserInputTimeout ∉ evs := by
  obtain ⟨m, hm, ⟨hwfm, hfr, e1, he1, hs1⟩, _⟩ := monitor_step cfg env b hwf hD
  obtain ⟨hmask, hlock, hpct, htimer, _⟩ := hfr
  have hrouter := router_reset cfg env m (hlock.trans hunlocked) hpending
  have hnot : ∀ e : Event, e.isStackCall = false → e ≠ .getButton → e ≠ .stopBuild →
      e ∉ e1 ++ [.getButton, .stopBuild] := by
    intro e he h1 h2 hmem
    rcases List.mem_append.mp hmem with h | h
    · exact not_mem_of_stackCalls hs1 e he h
    · simp at h
      rcases h with h | h
      · exact h1 h
      · exact h2 h
  have hdo := hrouter
  rw [← show doUpdate cfg env b = router cfg env m from by
    simp only [doUpdate, hm, Option.some_bind]] at hdo
  refine ⟨m, e1 ++ [.getButton, .stopBuild], hm,
    hdo, by simp [emit], hmask, htimer,
    by simp [emit, he1], ?_, ?_, ?_, ?_, ?_, ?_, ?_⟩
  · rw [List.count_append, count_stopBuild_of_stackCalls hs1]
    rfl
  · exact fun s k => hnot _ rfl (by simp) (by simp)
  · exact fun s p => hnot _ rfl (by simp) (by simp)
  · exact fun s => hnot _ rfl (by simp) (by simp)
  · exact fun d => hnot _ rfl (by simp) (by simp)
  · exact hnot _ rfl (by simp) (by simp)
  · exact hnot _ rfl (by simp) (by simp)

/-- Witness for C10: `RESET` (button 2) arrives while `gatedBoard` waits for
button 0. -/
theorem reset_stops_build_and_returns_witness :
    ∃ m evs, monitor cfg4 (pressEnv 2) gatedBoard = some m ∧
      doUpdate cfg4 (pressEnv 2) gatedBoard = some (emit .stopBuild (emit .getButton m)) ∧
      (emit .stopBuild (emit .getButton m)).trace = m.trace ++ [.getButton, .stopBuild] ∧
      (emit .stopBuild (emit .getButton m)).waitingMask = gatedBoard.waitingMask ∧
      (emit .stopBuild (emit .getButton m)).button_timeout = gatedBoard.button_timeout ∧
      (emit .stopBuild (emit .getButton m)).trace = gatedBoard.trace ++ evs ∧
      evs.count Event.stopBuild = 1 ∧
      (∀ s k, Event.notifyButtonPressed s k ∉ evs) ∧
      (∀ s p, Event.setBuildPercentage s p ∉ evs) ∧
      (∀ s, Event.update s false ∉ evs) ∧
      (∀ d, Event.timeoutStart d ∉ evs) ∧ Event.timeoutClear ∉ evs ∧
      Event.resetUserInputTimeout ∉ evs :=
  reset_stops_build_and_returns cfg4 (pressEnv 2) gatedBoard (by decide) (by decide)
    (by decide) rfl

/-- C11, refuted as stated: on the unlocked `board1` a tick whose pending button
is `RESET` (button 2) makes the calls `getButton` and `stopBuild` only:
`resetUserInputTimeout` is not invoked. -/
theorem reset_press_skips_input_timeout_reset :
    ∃ b', board1.screen_locked = false ∧ (pressEnv 2).pending = some cfg4.RESET ∧
      doUpdate cfg4 (pressEnv 2) board1 = some b' ∧
      b'.trace = board1.trace ++ [.getButton, .stopBuild] ∧
      [Event.getButton, Event.stopBuild].count Event.resetUserInputTimeout = 0 :=
  ⟨_, rfl, rfl, rfl, rfl, by decide⟩

/-- C11, amended: a tick invokes `resetUserInputTimeout` exactly once when the
controller is unlocked and a button other than `RESET` is pending (whether the
press is consumed by the wait gate, pushes the diagnostic screen or is forwarded);
it does not invoke it when the pending button is `RESET`, when no button is
pending, or when the controller is locked. -/
theorem input_timeout_reset_count (cfg : Config) (env : TickEnv) (b : InterfaceBoard)
    (hwf : WellFormed cfg b) (hD : 2 ≤ cfg.SCREEN_STACK_DEPTH) :
    ∃ b' evs, doUpdate cfg env b = some b' ∧ b'.trace = b.trace ++ evs ∧
      evs.count Event.resetUserInputTimeout =
        (if b.screen_locked = true then 0
         else match env.pending with
          | none => 0
          | some button => if button = cfg.RESET then 0 else 1) := by
  cases hl : b.screen_locked with
  | true =>
    obtain ⟨m, hm, ⟨_, hfr, evs, he, hs⟩, _⟩ := monitor_step cfg env b hwf hD
    have hr := router_locked cfg env m (hfr.2.1.trans hl)
    exact ⟨m, evs, by simp only [doUpdate, hm, Option.some_bind]; exact hr, he,
      by simpa using count_eq_zero_of_stackCalls hs Event.resetUserInputTimeout rfl⟩
  | false =>
    obtain ⟨m, e1, _, _, _, he1, hs1, hreset, hnone, hpress⟩ :=
      unlocked_tick_shape cfg env b hwf hD hl
    have hz := count_eq_zero_of_stackCalls hs1 Event.resetUserInputTimeout rfl
    cases hp : env.pending with
    | none =>
      obtain ⟨top, _, hdo⟩ := hnone hp
      refine ⟨_, e1 ++ (.getButton :: (pollEvents env m.button_timeout ++
        [.setBuildPercentage top m.buildPercentage, .update top false])), hdo,
        by simp [he1], ?_⟩
      simp [List.count_append, List.count_cons, hz, count_reset_pollEvents]
    | some button =>
      by_cases hr : button = cfg.RESET
      · subst hr
        refine ⟨_, e1 ++ [.getButton, .stopBuild], hreset hp, by simp [emit, he1], ?_⟩
        simp [List.count_append, List.count_cons, hz]
      · obtain ⟨b1, d, top, _, _, htr, hd, _, _, _, hdo⟩ := hpress button hp hr
        have hzd := count_eq_zero_of_dispatchCalls hd Event.resetUserInputTimeout rfl
        refine ⟨_, e1 ++ (.getButton :: d) ++ (.resetUserInputTimeout ::
          (pollEvents env b1.button_timeout ++
            [.setBuildPercentage top b1.buildPercentage, .update top false])), hdo,
          by simp [htr, he1], ?_⟩
        simp [List.count_append, List.count_cons, hz, hzd, count_reset_pollEvents, hr]

/-- Witness for amended C11: the diagnostic button (`EGG`, button 3) arrives on
`board1`. -/
theorem input_timeout_reset_count_witness :
    ∃ b' evs, doUpdate cfg4 (pressEnv 3) board1 = some b' ∧
      b'.trace = board1.trace ++ evs ∧
      evs.count Event.resetUserInputTimeout =
        (if board1.screen_locked = true then 0
         else match (pressEnv 3).pending with
          | none => 0
          | some button => if button = cfg4.RESET then 0 else 1) :=
  input_timeout_reset_count cfg4 (pressEnv 3) board1 (by decide) (by decide)

/-- C12, refuted as stated: on the locked `lockedBoard` a tick reporting
`HOST_STATE_BUILDING` pushes the build screen (20), which gets `reset()` and a
forced `update()`. -/
theorem locked_tick_still_starts_build :
    ∃ b', lockedBoard.screen_locked = true ∧
      doUpdate cfg4 (quietEnv .HOST_STATE_BUILDING) lockedBoard = some b' ∧
      b'.trace = lockedBoard.trace ++ [.reset 20, .update 20 true] ∧
      current b' = some 20 ∧ b'.screenIndex = 1 :=
  ⟨_, rfl, rfl, rfl, rfl, rfl⟩

/-- C12, amended: with `screen_locked` set, a `doUpdate` tick is its monitor phase
alone: no button is polled, `waitingMask` and the repeat timer are unchanged, and
no screen gets `notifyButtonPressed`, `setBuildPercentage` or a non-forced
`update`; the only calls are the `reset`, `pop` and forced `update` calls of the
build monitor. -/
theorem locked_tick_is_monitor_only (cfg : Config) (env : TickEnv) (b : InterfaceBoard)
    (hwf : WellFormed cfg b) (hD : 2 ≤ cfg.SCREEN_STACK_DEPTH)
    (hlocked : b.screen_locked = true) :
    ∃ m evs, monitor cfg env b = some m ∧ doUpdate cfg env b = some m ∧
      m.waitingMask = b.waitingMask ∧ m.button_timeout = b.button_timeout ∧
      m.trace = b.trace ++ evs ∧ (∀ e ∈ evs, e.isStackCall = true) ∧
      Event.getButton ∉ evs ∧ Event.clearButtonPress ∉ evs ∧
      (∀ s k, Event.notifyButtonPressed s k ∉ evs) ∧
      (∀ s p, Event.setBuildPercentage s p ∉ evs) ∧
      (∀ s, Event.update s false ∉ evs) ∧
      (∀ d, Event.timeoutStart d ∉ evs) ∧ Event.timeoutClear ∉ evs := by
  obtain ⟨m, hm, ⟨_, hfr, evs, he, hs⟩, _⟩ := monitor_step cfg env b hwf hD
  obtain ⟨hmask, hlock, _, htimer, _⟩ := hfr
  have hr := router_locked cfg env m (hlock.trans hlocked)
  exact ⟨m, evs, hm, by simp only [doUpdate, hm, Option.some_bind]; exact hr, hmask, htimer,
    he, hs, not_mem_of_stackCalls hs _ rfl, not_mem_of_stackCalls hs _ rfl,
    fun s k => not_mem_of_stackCalls hs (.notifyButtonPressed s k) rfl,
    fun s p => not_mem_of_stackCalls hs (.setBuildPercentage s p) rfl,
    fun s => not_mem_of_stackCalls hs (.update s false) rfl,
    fun d => not_mem_of_stackCalls hs (.timeoutStart d) rfl,
    not_mem_of_stackCalls hs _ rfl⟩

/-- Witness for amended C12: a locked tick with button 0 pending. -/
theorem locked_tick_is_monitor_only_witness :
    ∃ m evs, monitor cfg4 (pressEnv 0) lockedBoard = some m ∧
      doUpdate cfg4 (pressEnv 0) lockedBoard = some m ∧
      m.waitingMask = lockedBoard.waitingMask ∧
      m.button_timeout = lockedBoard.button_timeout ∧
      m.trace = lockedBoard.trace ++ evs ∧ (∀ e ∈ evs, e.isStackCall = true) ∧
      Event.getButton ∉ evs ∧ Event.clearButtonPress ∉ evs ∧
      (∀ s k, Event.notifyButtonPressed s k ∉ evs) ∧
      (∀ s p, Event.setBuildPercentage s p ∉ evs) ∧
      (∀ s, Event.update s false ∉ evs) ∧
      (∀ d, Event.timeoutStart d ∉ evs) ∧ Event.timeoutClear ∉ evs :=
  locked_tick_is_monitor_only cfg4 (pressEnv 0) lockedBoard (by decide) (by decide) rfl

/-- C13, the code at the failing input: over four slots, `init()`, a tick that
starts an onboard build and a tick that ends it reach a state with `building`
false; the next tick reports `HOST_STATE_BUILDING`, starts a build, and leaves
`onboard_build` true although the reported state is not
`HOST_STATE_BUILDING_ONBOARD`. -/
theorem onboard_flag_survives_build_end :
    ∃ b b', Reachable cfg4 b ∧ b.building = false ∧
      doUpdate cfg4 (quietEnv .HOST_STATE_BUILDING) b = some b' ∧ b'.building = true ∧
      b'.onboard_build = true ∧
      (quietEnv .HOST_STATE_BUILDING).hostState ≠ .HOST_STATE_BUILDING_ONBOARD :=
  ⟨_, _, ⟨board0 4, [.doUpdate (quietEnv .HOST_STATE_BUILDING_ONBOARD),
      .doUpdate (quietEnv (.other 0))], rfl, rfl⟩, rfl, rfl, rfl, rfl, by decide⟩

/-- C14: with `building` true and `screenIndex = i`, the monitor phase of a tick
whose host state is neither a building state nor `HEAT_SHUTDOWN` leaves the
controller as it is when the current screen reports `screenWaiting()`; otherwise
the unwind loop ends with `screenIndex = min(i, 1)` when `onboard_build` is true
and `screenIndex = 0` when it is false, every slot keeps its screen, and
`building` becomes false. -/
theorem build_end_unwinds (cfg : Config) (env : TickEnv) (b : InterfaceBoard)
    (top : Screen) (code : Nat) (hwf : WellFormed cfg b) (hb : b.building = true)
    (hhost : env.hostState = .other code) (htop : current b = some top) :
    (env.screenWaiting top = true → monitor cfg env b = some b) ∧
    (env.screenWaiting top = false →
      ∃ m, monitor cfg env b = some m ∧
        m.screenIndex = (if b.onboard_build = true then min b.screenIndex 1 else 0) ∧
        m.screenStack = b.screenStack ∧ m.building = false) := by
  have htop' := htop
  simp only [current] at htop'
  have hfuel : b.screenIndex ≤ (b.screenIndex.toNat : Int) := by
    have := hwf.2.1
    omega
  constructor
  · intro hw
    simp [monitor, hhost, buildEnd, hb, htop', hw]
  · intro hw
    cases ho : b.onboard_build with
    | true =>
      obtain ⟨m, hm, _, hstack, hidx⟩ :=
        popWhileAbove_step cfg 1 (by omega) b.screenIndex.toNat b hwf hfuel
      exact ⟨{ m with building := false },
        by simp [monitor, hhost, buildEnd, hb, htop', hw, ho, hm], by simp [hidx], hstack, rfl⟩
    | false =>
      obtain ⟨m, hm, _, hstack, hidx⟩ :=
        popWhileAbove_step cfg 0 (by omega) b.screenIndex.toNat b hwf hfuel
      refine ⟨{ m with building := false },
        by simp [monitor, hhost, buildEnd, hb, htop', hw, ho, hm], ?_, hstack, rfl⟩
      have := hwf.2.1
      simp only [hidx]
      simp
      omega

/-- Witness for C14: on `builtBoard` a waiting current screen holds the unwind
back, and otherwise the stack unwinds to index 1. -/
theorem build_end_unwinds_witness :
    monitor cfg4 { waitingEnv with hostState := .other 0 } builtBoard = some builtBoard ∧
    ∃ m, monitor cfg4 (quietEnv (.other 0)) builtBoard = some m ∧
      m.screenIndex = (if builtBoard.onboard_build = true then min builtBoard.screenIndex 1
        else 0) ∧
      m.screenStack = builtBoard.screenStack ∧ m.building = false :=
  ⟨(build_end_unwinds cfg4 { waitingEnv with hostState := .other 0 } builtBoard 7 0
      (by decide) rfl rfl rfl).1 rfl,
   (build_end_unwinds cfg4 (quietEnv (.other 0)) builtBoard 7 0 (by decide) rfl rfl rfl).2
      rfl⟩

/-- C15: on a well-formed controller with `building` false and
`screenIndex < SCREEN_STACK_DEPTH - 1`, the monitor phase of a building-state tick
in which neither the current screen reports `screenWaiting()` nor
`command::isWaiting()` holds is `pushScreen(buildScreen)`: the build screen
becomes current one slot above the previous top, and `building` is set. With
`building` already true the monitor phase of a building-state tick changes
neither stack, index, `building` nor trace. -/
theorem build_starts_on_top_once (cfg : Config) (env : TickEnv) (b : InterfaceBoard)
    (top : Screen)
    (hhost : env.hostState = .HOST_STATE_BUILDING ∨
      env.hostState = .HOST_STATE_BUILDING_FROM_SD ∨
      env.hostState = .HOST_STATE_BUILDING_ONBOARD) :
    (WellFormed cfg b → current b = some top → b.building = false →
      b.screenIndex < (cfg.SCREEN_STACK_DEPTH : Int) - 1 →
      env.screenWaiting top = false → env.commandWaiting = false →
      ∃ m p, monitor cfg env b = some m ∧ pushScreen cfg b.buildScreen b = some p ∧
        m.screenStack = p.screenStack ∧ m.screenIndex = p.screenIndex ∧
        m.trace = p.trace ∧
        m.screenIndex = b.screenIndex + 1 ∧ current m = some b.buildScreen ∧
        stackRead m.screenStack b.screenIndex = some top ∧
        (∀ j : Int, j ≠ b.screenIndex + 1 →
          stackRead m.screenStack j = stackRead b.screenStack j) ∧
        m.building = true ∧
        m.trace = b.trace ++ [.reset b.buildScreen, .update b.buildScreen true]) ∧
    (b.building = true →
      ∃ m, monitor cfg env b = some m ∧ m.screenStack = b.screenStack ∧
        m.screenIndex = b.screenIndex ∧ m.building = true ∧ m.trace = b.trace) := by
  constructor
  · intro hwf htop hb hroom hsw hcw
    obtain ⟨hlen, h0, h1⟩ := hwf
    have hw : (env.screenWaiting top || env.commandWaiting) = false := by simp [hsw, hcw]
    have hread : ∀ j : Int, j ≠ b.screenIndex + 1 →
        stackRead (b.screenStack.set (b.screenIndex + 1).toNat b.buildScreen) j
          = stackRead b.screenStack j := by
      intro j hj
      by_cases hj0 : 0 ≤ j
      · exact stackRead_set_other _ _ _ _ (by omega) hj0 (fun h => hj h.symm)
      · have hneg : j < 0 := by omega
        simp [stackRead, hneg]
    have key : ∀ b' : InterfaceBoard, b'.screenStack = b.screenStack →
        b'.screenIndex = b.screenIndex → b'.buildScreen = b.buildScreen →
        b'.trace = b.trace → b'.building = false →
        ∃ m p, buildStart cfg env b' = some m ∧ pushScreen cfg b.buildScreen b = some p ∧
          m.screenStack = p.screenStack ∧ m.screenIndex = p.screenIndex ∧
          m.trace = p.trace ∧
          m.screenIndex = b.screenIndex + 1 ∧ current m = some b.buildScreen ∧
          stackRead m.screenStack b.screenIndex = some top ∧
          (∀ j : Int, j ≠ b.screenIndex + 1 →
            stackRead m.screenStack j = stackRead b.screenStack j) ∧
          m.building = true ∧
          m.trace = b.trace ++ [.reset b.buildScreen, .update b.buildScreen true] := by
      intro b' hs hi hbs htr hb'
      have htop' : current b' = some top := by
        simp only [current, hs, hi]
        exact htop
      have hp' := pushScreen_room cfg b'.buildScreen b' (by rw [hs]; exact hlen)
        (by rw [hi]; exact hroom) (by rw [hi]; omega)
      have hp := pushScreen_room cfg b.buildScreen b hlen hroom (by omega)
      have hm := buildStart_onTop cfg env b' top hb' htop' hw
      rw [hp'] at hm
      refine ⟨_, _, hm, hp, ?_, ?_, ?_, ?_, ?_, ?_, ?_, rfl, ?_⟩
      · simp [emit, hs, hi, hbs]
      · simp [emit, hi]
      · simp [emit, htr, hbs]
      · simp [emit, hi]
      · simp only [current, Option.map_some', emit, hs, hi, hbs]
        exact stackRead_set_same _ _ _ (by omega) (by omega)
      · simp only [Option.map_some', emit, hs, hi, hbs]
        rw [hread b.screenIndex (by omega)]
        exact htop
      · intro j hj
        simp only [Option.map_some', emit, hs, hi, hbs]
        exact hread j hj
      · simp [emit, htr, hbs]
    rcases hhost with h | h | h
    · simp only [monitor, h]
      exact key b rfl rfl rfl rfl hb
    · simp only [monitor, h]
      exact key b rfl rfl rfl rfl hb
    · simp only [monitor, h]
      exact key { b with onboard_build := true } rfl rfl rfl rfl hb
  · intro hb
    rcases hhost with h | h | h
    · exact ⟨b, by simp only [monitor, h]; exact buildStart_already cfg env b hb,
        rfl, rfl, hb, rfl⟩
    · exact ⟨b, by simp only [monitor, h]; exact buildStart_already cfg env b hb,
        rfl, rfl, hb, rfl⟩
    · exact ⟨{ b with onboard_build := true },
        by simp only [monitor, h]; exact buildStart_already cfg env _ hb, rfl, rfl, hb, rfl⟩

/-- Witness for C15: a build starts on `board1`, and a building-state tick on
`builtBoard`, where `building` is already set, changes nothing. -/
theorem build_starts_on_top_once_witness :
    (∃ m p, monitor cfg4 (quietEnv .HOST_STATE_BUILDING) board1 = some m ∧
        pushScreen cfg4 board1.buildScreen board1 = some p ∧
        m.screenStack = p.screenStack ∧ m.screenIndex = p.screenIndex ∧
        m.trace = p.trace ∧
        m.screenIndex = board1.screenIndex + 1 ∧ current m = some board1.buildScreen ∧
        stackRead m.screenStack board1.screenIndex = some 10 ∧
        (∀ j : Int, j ≠ board1.screenIndex + 1 →
          stackRead m.screenStack j = stackRead board1.screenStack j) ∧
        m.building = true ∧
        m.trace = board1.trace ++
          [.reset board1.buildScreen, .update board1.buildScreen true]) ∧
    ∃ m, monitor cfg4 (quietEnv .HOST_STATE_BUILDING_ONBOARD) builtBoard = some m ∧
      m.screenStack = builtBoard.screenStack ∧ m.screenIndex = builtBoard.screenIndex ∧
      m.building = true ∧ m.trace = builtBoard.trace :=
  ⟨(build_starts_on_top_once cfg4 (quietEnv .HOST_STATE_BUILDING) board1 10
      (Or.inl rfl)).1 (by decide) rfl rfl (by decide) rfl rfl,
   (build_starts_on_top_once cfg4 (quietEnv .HOST_STATE_BUILDING_ONBOARD) builtBoard 7
      (Or.inr (Or.inr rfl))).2 rfl⟩

/-- C16, refuted as stated: `setBuildPercentage(100)` on a controller holding the
constructor's value 101 leaves 101 stored, not 100. -/
theorem build_percentage_100_not_stored :
    (board0 4).buildPercentage = 101 ∧
      (setBuildPercentage 100 (board0 4)).buildPercentage = 101 ∧
      (setBuildPercentage 100 (board0 4)).buildPercentage ≠ 100 := by
  decide

/-- C16, amended: for every `p` in `[0, 99]` and every prior state,
`setBuildPercentage(p)` stores `p`, and the next unlocked tick passes `p` to the
current screen's `setBuildPercentage` (once; a tick cut short by `RESET` makes no
such call); for every `uint8_t` value `q >= 100` the call leaves the stored value
as it was. -/
theorem build_percentage_last_writer_below_100 (cfg : Config) (env : TickEnv)
    (b : InterfaceBoard) (p : Nat) (hp : p < 100) (hwf : WellFormed cfg b)
    (hD : 2 ≤ cfg.SCREEN_STACK_DEPTH) (hunlocked : b.screen_locked = false) :
    (setBuildPercentage p b).buildPercentage = p ∧
    (∀ q, 100 ≤ q → q < 256 →
      (setBuildPercentage q b).buildPercentage = b.buildPercentage) ∧
    ∃ b' evs top, doUpdate cfg env (setBuildPercentage p b) = some b' ∧
      current b' = some top ∧ b'.trace = b.trace ++ evs ∧
      evs.filter Event.isSetBuildPercentage =
        (if env.pending = some cfg.RESET then [] else [.setBuildPercentage top p]) := by
  have hset := setBuildPercentage_lt p b hp
  refine ⟨by rw [hset], ?_, ?_⟩
  · intro q h1 h2
    have hq : q % 256 = q := Nat.mod_eq_of_lt h2
    have hn : ¬ q < 100 := by omega
    simp [setBuildPercentage, hq, hn]
  · rw [hset]
    have hwf2 : WellFormed cfg { b with buildPercentage := p } := hwf
    obtain ⟨m, e1, _, hwfm, hfr, he1, hs1, hreset, hnone, hpress⟩ :=
      unlocked_tick_shape cfg env { b with buildPercentage := p } hwf2 hD hunlocked
    have hpct : m.buildPercentage = p := hfr.2.2.1
    have he1' : m.trace = b.trace ++ e1 := he1
    have hz := filter_setPct_of_stackCalls hs1
    cases hpend : env.pending with
    | none =>
      obtain ⟨top, htop, hdo⟩ := hnone hpend
      refine ⟨_, e1 ++ (.getButton :: (pollEvents env m.button_timeout ++
        [.setBuildPercentage top m.buildPercentage, .update top false])), top, hdo, htop,
        by simp [he1'], ?_⟩
      simp [List.filter_append, List.filter_cons, hz, filter_setPct_pollEvents,
        Event.isSetBuildPercentage, hpct]
    | some button =>
      by_cases hr : button = cfg.RESET
      · subst hr
        obtain ⟨top, htop⟩ := current_some cfg m hwfm
        refine ⟨_, e1 ++ [.getButton, .stopBuild], top, hreset hpend, htop,
          by simp [emit, he1'], ?_⟩
        simp [List.filter_append, List.filter_cons, hz, Event.isSetBuildPercentage]
      · obtain ⟨b1, d, top, _, htop, htr, hd, hpct1, _, _, hdo⟩ := hpress button hpend hr
        have hzd := filter_setPct_of_dispatchCalls hd
        refine ⟨_, e1 ++ (.getButton :: d) ++ (.resetUserInputTimeout ::
          (pollEvents env b1.button_timeout ++
            [.setBuildPercentage top b1.buildPercentage, .update top false])), top, hdo,
          htop, by simp [htr, he1'], ?_⟩
        simp [List.filter_append, List.filter_cons, hz, hzd, filter_setPct_pollEvents,
          Event.isSetBuildPercentage, hpct1, hpct, hr]

/-- Witness for amended C16: 42 percent is set on `board1` and passed to the main
screen by the next tick. -/
theorem build_percentage_last_writer_below_100_witness :
    (setBuildPercentage 42 board1).buildPercentage = 42 ∧
    (∀ q, 100 ≤ q → q < 256 →
      (setBuildPercentage q board1).buildPercentage = board1.buildPercentage) ∧
    ∃ b' evs top, doUpdate cfg4 (pressEnv 0) (setBuildPercentage 42 board1) = some b' ∧
      current b' = some top ∧ b'.trace = board1.trace ++ evs ∧
      evs.filter Event.isSetBuildPercentage =
        (if (pressEnv 0).pending = some cfg4.RESET then []
         else [.setBuildPercentage top 42]) :=
  build_percentage_last_writer_below_100 cfg4 (pressEnv 0) board1 42 (by decide) (by decide)
    (by decide) rfl

/-- C17: for every prior state (array of `SCREEN_STACK_DEPTH >= 1` slots), `init()`
returns with `screenIndex = 0`, the main screen in slot 0 and current, `reset()`
then a forced `update()` on it as its only calls, `waitingMask = 0`,
`building = false` and `screen_locked = false`. -/
theorem init_seeds_one_root (cfg : Config) (b0 : InterfaceBoard)
    (hlen : b0.screenStack.length = cfg.SCREEN_STACK_DEPTH)
    (hD : 1 ≤ cfg.SCREEN_STACK_DEPTH) :
    ∃ b, init cfg b0 = some b ∧ b.screenIndex = 0 ∧
      stackRead b.screenStack 0 = some b0.mainScreen ∧ current b = some b0.mainScreen ∧
      b.trace = b0.trace ++ [.reset b0.mainScreen, .update b0.mainScreen true] ∧
      b.waitingMask = 0 ∧ b.building = false ∧ b.screen_locked = false := by
  have hroot : stackRead (b0.screenStack.set (0 : Int).toNat b0.mainScreen) 0
      = some b0.mainScreen :=
    stackRead_set_same b0.screenStack 0 b0.mainScreen (by omega) (by omega)
  exact ⟨_, init_eq cfg b0 hlen hD, rfl, hroot, hroot, rfl, rfl, rfl, rfl⟩

/-- Witness for C17: `init()` on `staleBoard`. -/
theorem init_seeds_one_root_witness :
    ∃ b, init cfg4 staleBoard = some b ∧ b.screenIndex = 0 ∧
      stackRead b.screenStack 0 = some staleBoard.mainScreen ∧
      current b = some staleBoard.mainScreen ∧
      b.trace = staleBoard.trace ++
        [.reset staleBoard.mainScreen, .update staleBoard.mainScreen true] ∧
      b.waitingMask = 0 ∧ b.building = false ∧ b.screen_locked = false :=
  init_seeds_one_root cfg4 staleBoard (by decide) (by decide)

/-- C18, refuted as stated: on `gatedBoard` the tick `holdEnv` forwards button 0
to a continuous screen and arms the repeat timer at time 1000; at the next tick,
at time 150000, the interval has passed (a poll would find the timer elapsed), but
its pending button is `RESET`: the router returns after `stopBuild`, makes no
`clearButtonPress` call, and leaves the timer armed. -/
theorem reset_tick_after_interval_skips_clear :
    ∃ b2, doUpdate cfg4 holdEnv gatedBoard = some heldBoard ∧
      heldBoard.screen_locked = false ∧
      heldBoard.button_timeout = repeatTimer true 1000 ∧
      (heldBoard.button_timeout.hasElapsed lateResetEnv.now).2 = true ∧
      doUpdate cfg4 lateResetEnv heldBoard = some b2 ∧
      b2.trace = heldBoard.trace ++ [.getButton, .stopBuild] ∧
      Event.clearButtonPress ∉ [Event.getButton, Event.stopBuild] ∧
      b2.button_timeout = repeatTimer true 1000 :=
  ⟨_, rfl, rfl, rfl, rfl, rfl, rfl, by decide, rfl⟩

/-- C18, amended: an unlocked tick that forwards a press (not `RESET`, not `EGG`,
not consumed by the wait gate) to a current screen whose `continuousButtons()` is
true starts the repeat timer with the 100000 microsecond interval. From there,
over operations that do not start the timer again: as long as no tick polls the
timer after the interval has passed (a tick whose pending button is `RESET`
returns before the poll), `clearButtonPress()` is not called and the timer stays
armed; the first tick that does poll it after the interval calls
`clearButtonPress()` once and disarms the timer; and over everything that
follows `clearButtonPress()` is not called again and `hasElapsed()` is false. -/
theorem repeat_timer_clears_at_first_poll (cfg : Config) (env0 : TickEnv)
    (b : InterfaceBoard) (button : ButtonName) (hwf : WellFormed cfg b)
    (hD : 2 ≤ cfg.SCREEN_STACK_DEPTH) (hunlocked : b.screen_locked = false)
    (hpending : env0.pending = some button) (hreset : button ≠ cfg.RESET)
    (hegg : button ≠ cfg.EGG)
    (hpass : (1 <<< button) &&& b.waitingMask = 0 ∨
      ∀ m top, monitor cfg env0 b = some m → current m = some top →
        env0.isCancelScreen top = true)
    (hcont : ∀ m top, monitor cfg env0 b = some m → current m = some top →
      env0.continuousButtons top = true) :
    ∃ b1 ev0, doUpdate cfg env0 b = some b1 ∧ b1.trace = b.trace ++ ev0 ∧
      ev0.count (Event.timeoutStart 100000) = 1 ∧
      ev0.count Event.clearButtonPress = 0 ∧
      b1.button_timeout = repeatTimer true env0.now ∧
      ∀ pre, noRearmRun cfg pre b1 = true →
        pre.any (elapsedPollOp cfg env0.now) = false →
        ∃ bp evp, run cfg pre b1 = some bp ∧ bp.trace = b1.trace ++ evp ∧
          evp.count Event.clearButtonPress = 0 ∧
          bp.button_timeout = repeatTimer true env0.now ∧
          ∀ env, elapsedPoll cfg env0.now env = true →
            noRearmRun cfg [.doUpdate env] bp = true →
            ∃ bt evt, doUpdate cfg env bp = some bt ∧ bt.trace = bp.trace ++ evt ∧
              evt.count Event.clearButtonPress = 1 ∧
              bt.button_timeout = repeatTimer false env0.now ∧
              ∀ post, noRearmRun cfg post bt = true →
                ∃ b2 evs, run cfg post bt = some b2 ∧ b2.trace = bt.trace ++ evs ∧
                  evs.count Event.clearButtonPress = 0 ∧
                  b2.button_timeout = repeatTimer false env0.now ∧
                  ∀ now, (b2.button_timeout.hasElapsed now).2 = false := by
  obtain ⟨m, hm, ⟨hwfm, hfr, e1, he1, hs1⟩, _⟩ := monitor_step cfg env0 b hwf hD
  obtain ⟨top, htop⟩ := current_some cfg m hwfm
  obtain ⟨hmask, hlock, hpct, htimer, _⟩ := hfr
  have hpass' : (1 <<< button) &&& m.waitingMask = 0 ∨ env0.isCancelScreen top = true := by
    rcases hpass with h | h
    · exact Or.inl (by rw [hmask]; exact h)
    · exact Or.inr (h m top hm htop)
  have hc : env0.continuousButtons top = true := hcont m top hm htop
  have hrouter := router_forward cfg env0 m button top (hlock.trans hunlocked) hpending
    hreset hegg htop hpass'
  rw [hc] at hrouter
  simp only [if_true] at hrouter
  have hstart : m.button_timeout.start 100000 env0.now = repeatTimer true env0.now := rfl
  have hpoll : pollTimer env0 (repeatTimer true env0.now) = repeatTimer true env0.now := by
    rw [pollTimer_repeatTimer]
    simp
  have hpe : pollEvents env0 (repeatTimer true env0.now) = [] := by
    unfold pollEvents
    rw [hasElapsed_repeatTimer]
    simp
  rw [hstart, hpoll, hpe] at hrouter
  have hdo : doUpdate cfg env0 b = router cfg env0 m := by
    simp only [doUpdate, hm, Option.some_bind]
  rw [← hdo] at hrouter
  have hz1 := count_eq_zero_of_stackCalls hs1 (Event.timeoutStart 100000) rfl
  have hz2 := count_eq_zero_of_stackCalls hs1 Event.clearButtonPress rfl
  have hres : ∃ b1, doUpdate cfg env0 b = some b1 ∧ WellFormed cfg b1 ∧
      b1.screen_locked = false ∧ b1.button_timeout = repeatTimer true env0.now ∧
      b1.trace = m.trace ++ ([.getButton, .notifyButtonPressed top button] ++
        [.timeoutStart 100000] ++ [.resetUserInputTimeout] ++ [] ++
        [.setBuildPercentage top m.buildPercentage, .update top false]) :=
    ⟨_, hrouter, hwfm, hlock.trans hunlocked, rfl, rfl⟩
  obtain ⟨b1, hdo1, hwf1, hl1, htm1, htr1⟩ := hres
  refine ⟨b1, e1 ++ ([.getButton, .notifyButtonPressed top button] ++
      [.timeoutStart 100000] ++ [.resetUserInputTimeout] ++ [] ++
      [.setBuildPercentage top m.buildPercentage, .update top false]), hdo1,
    by rw [htr1, he1, List.append_assoc], ?_, ?_, htm1, ?_⟩
  · simp [List.count_append, List.count_cons, hz1]
  · simp [List.count_append, List.count_cons, hz2]
  · intro pre hpre hnone
    obtain ⟨bp, evp, hrunp, hwfp, hlp, htrp, htmp, hcp⟩ :=
      norearm_run_timer cfg hD env0.now pre b1 true hwf1 hl1 htm1 hpre
    rw [hnone] at htmp hcp
    refine ⟨bp, evp, hrunp, htrp, by simpa using hcp, by simpa using htmp, ?_⟩
    intro env henv hq
    obtain ⟨bt, evt, hdot, hwft, hlt, htrt, hqt⟩ :=
      norearm_tick_timer cfg env bp true env0.now hwfp hD hlp (by simpa using htmp)
    have hstep : step cfg (.doUpdate env) bp = some bt := hdot
    simp only [noRearmRun, hstep, htrt, List.drop_left, Bool.and_eq_true,
      Bool.not_eq_true'] at hq
    obtain ⟨htmt, hct⟩ := hqt hq.1
    rw [henv] at htmt hct
    refine ⟨bt, evt, hdot, htrt, by simpa using hct, by simpa using htmt, ?_⟩
    intro post hpost
    obtain ⟨b2, evs, hrun2, _, _, htr2, htm2, hc2⟩ :=
      norearm_run_timer cfg hD env0.now post bt false hwft hlt (by simpa using htmt) hpost
    refine ⟨b2, evs, hrun2, htr2, by simpa using hc2, by simpa using htm2, ?_⟩
    intro now
    rw [htm2, hasElapsed_repeatTimer]
    rfl

/-- Witness for amended C18: after `holdEnv` on `gatedBoard` the timer stays armed
over `armedOps` (which end with a `RESET` tick after the interval), the poll at
time 160000 clears it with one `clearButtonPress` call, and `clearedOps` bring no
further call. -/
theorem repeat_timer_clears_at_first_poll_witness :
    ∃ bp bt b2 evp evt evs, doUpdate cfg4 holdEnv gatedBoard = some heldBoard ∧
      run cfg4 armedOps heldBoard = some bp ∧ bp.trace = heldBoard.trace ++ evp ∧
      evp.count Event.clearButtonPress = 0 ∧
      bp.button_timeout = repeatTimer true 1000 ∧
      doUpdate cfg4 (idleEnv 160000) bp = some bt ∧ bt.trace = bp.trace ++ evt ∧
      evt.count Event.clearButtonPress = 1 ∧
      bt.button_timeout = repeatTimer false 1000 ∧
      run cfg4 clearedOps bt = some b2 ∧ b2.trace = bt.trace ++ evs ∧
      evs.count Event.clearButtonPress = 0 ∧
      b2.button_timeout = repeatTimer false 1000 ∧
      ∀ now, (b2.button_timeout.hasElapsed now).2 = false := by
  obtain ⟨b1, _, h1, _, _, _, _, hrest⟩ :=
    repeat_timer_clears_at_first_poll cfg4 holdEnv gatedBoard 0 (by decide) (by decide)
      (by decide) rfl (by decide) (by decide) (Or.inr (fun _ _ _ _ => rfl))
      (fun _ _ _ _ => rfl)
  have hb1 : b1 = heldBoard :=
    Option.some.inj (h1.symm.trans (rfl : doUpdate cfg4 holdEnv gatedBoard = some heldBoard))
  subst hb1
  obtain ⟨bp, evp, h2, h3, h4, h5, hrest2⟩ := hrest armedOps (by decide) (by decide)
  have hbp : bp = (run cfg4 armedOps heldBoard).get (by decide) := by
    obtain ⟨_, h⟩ := Option.eq_some_iff_get_eq.mp h2
    exact h.symm
  subst hbp
  obtain ⟨bt, evt, h6, h7, h8, h9, hrest3⟩ := hrest2 (idleEnv 160000) (by decide) (by decide)
  have hbt : bt = (doUpdate cfg4 (idleEnv 160000)
      ((run cfg4 armedOps heldBoard).get (by decide))).get (by decide) := by
    obtain ⟨_, h⟩ := Option.eq_some_iff_get_eq.mp h6
    exact h.symm
  subst hbt
  obtain ⟨b2, evs, h10, h11, h12, h13, h14⟩ := hrest3 clearedOps (by decide)
  exact ⟨_, _, b2, evp, evt, evs, rfl, h2, h3, h4, h5, h6, h7, h8, h9, h10, h11, h12, h13,
    h14⟩

/-- C19: `buttonPushed()` is true exactly when `waitingMask` is 0; after
`waitForButton(m)` (a `uint8_t` mask) it is true exactly when `m = 0`; from
`init()`, after every sequence of ticks and stack operations (none of which is
`waitForButton`) it is true; and a tick leaves `waitingMask` unchanged or sets it
to 0. -/
theorem button_gate_query (cfg : Config) (b b0 : InterfaceBoard) (mask : Nat)
    (ops : List Op) (env : TickEnv) (hmask : mask < 256)
    (hD : 2 ≤ cfg.SCREEN_STACK_DEPTH)
    (hlen : b0.screenStack.length = cfg.SCREEN_STACK_DEPTH) (hwf : WellFormed cfg b) :
    (buttonPushed b = true ↔ b.waitingMask = 0) ∧
    (buttonPushed (waitForButton mask b) = true ↔ mask = 0) ∧
    (∃ b1, (init cfg b0).bind (run cfg ops) = some b1 ∧ buttonPushed b1 = true) ∧
    (∃ b', doUpdate cfg env b = some b' ∧
      (b'.waitingMask = b.waitingMask ∨ b'.waitingMask = 0)) := by
  refine ⟨by simp [buttonPushed], ?_, ?_, ?_⟩
  · have h1 : mask % 256 = mask := Nat.mod_eq_of_lt hmask
    simp [buttonPushed, waitForButton, h1]
  · have hi := init_eq cfg b0 hlen (by omega)
    obtain ⟨b1, h1, hw1, _⟩ := init_step cfg b0 hlen (by omega)
    have hm1 : b1.waitingMask = 0 := by
      rw [hi] at h1
      cases h1
      rfl
    obtain ⟨b2, h2, hm2⟩ := run_mask_zero cfg hD ops b1 hw1 hm1
    exact ⟨b2, by simp [h1, h2], by simp [buttonPushed, hm2]⟩
  · obtain ⟨b', h1, _, h3⟩ := doUpdate_mask cfg env b hwf hD
    exact ⟨b', h1, h3⟩

/-- Witness for C19: `gatedBoard` waits for button 0; a run of pushes, pops and
ticks with button presses from `init()`; and the tick that swallows button 0. -/
theorem button_gate_query_witness :
    (buttonPushed gatedBoard = true ↔ gatedBoard.waitingMask = 0) ∧
    (buttonPushed (waitForButton 4 gatedBoard) = true ↔ 4 = 0) ∧
    (∃ b1, (init cfg4 (board0 4)).bind (run cfg4
        [.pushScreen 5, .doUpdate (pressEnv 0), .doUpdate (cancelEnv 1), .popScreen,
         .doUpdate behindEnv]) = some b1 ∧ buttonPushed b1 = true) ∧
    (∃ b', doUpdate cfg4 (pressEnv 0) gatedBoard = some b' ∧
      (b'.waitingMask = gatedBoard.waitingMask ∨ b'.waitingMask = 0)) :=
  button_gate_query cfg4 gatedBoard (board0 4) 4 _ (pressEnv 0) (by decide) (by decide)
    (by decide) (by decide)

/-- C20, refuted as stated: over four slots, `init()` and three pushes
reach the full stack `[10, 5, 6, 7]` with `building` false; the monitor phase of a
tick that starts a build while `command::isWaiting()` holds keeps `screenIndex = 3`
and the top but overwrites slot 2 (screen 6) with the build screen (20), where
`pushScreen` on the same state leaves every slot as it was. -/
theorem push_behind_on_full_stack_overwrites :
    ∃ b m p, Reachable cfg4 b ∧ b.screenStack = [10, 5, 6, 7] ∧ b.screenIndex = 3 ∧
      b.building = false ∧ monitor cfg4 behindEnv b = some m ∧
      m.screenIndex = 3 ∧ m.screenStack = [10, 5, 20, 7] ∧
      m.screenStack ≠ b.screenStack ∧
      pushScreen cfg4 b.buildScreen b = some p ∧ p.screenStack = b.screenStack :=
  ⟨_, _, _, ⟨board0 4, [.pushScreen 5, .pushScreen 6, .pushScreen 7], rfl, rfl⟩, rfl, rfl,
    rfl, rfl, rfl, rfl, by decide, rfl, rfl⟩

/-- C20, amended: with `building` false and a full stack of at least three slots
(`screenIndex = SCREEN_STACK_DEPTH - 1 >= 2`), the monitor phase of a building-state
tick in which the current screen reports `screenWaiting()` or
`command::isWaiting()` holds keeps `screenIndex` and the top, stores the build
screen in the slot below the top in place of the screen held there, keeps every
other slot, sets `building`, and calls `reset()` on the build screen. -/
theorem push_behind_full_overwrites_below (cfg : Config) (env : TickEnv)
    (b : InterfaceBoard) (top : Screen) (hwf : WellFormed cfg b) (hb : b.building = false)
    (hfull : b.screenIndex = (cfg.SCREEN_STACK_DEPTH : Int) - 1) (h2 : 2 ≤ b.screenIndex)
    (hhost : env.hostState = .HOST_STATE_BUILDING ∨
      env.hostState = .HOST_STATE_BUILDING_FROM_SD ∨
      env.hostState = .HOST_STATE_BUILDING_ONBOARD)
    (htop : current b = some top)
    (hw : env.screenWaiting top = true ∨ env.commandWaiting = true) :
    ∃ m, monitor cfg env b = some m ∧ m.screenIndex = b.screenIndex ∧
      current m = some top ∧
      stackRead m.screenStack (b.screenIndex - 1) = some b.buildScreen ∧
      (∀ j : Int, j ≠ b.screenIndex - 1 →
        stackRead m.screenStack j = stackRead b.screenStack j) ∧
      m.building = true ∧ m.trace = b.trace ++ [.reset b.buildScreen] := by
  have hw' : (env.screenWaiting top || env.commandWaiting) = true := by
    rcases hw with h | h <;> simp [h]
  obtain ⟨hlen, h0, hlt⟩ := hwf
  have hread : ∀ j : Int, j ≠ b.screenIndex - 1 →
      stackRead (b.screenStack.set (b.screenIndex - 1).toNat b.buildScreen) j
        = stackRead b.screenStack j := by
    intro j hj
    by_cases hj0 : 0 ≤ j
    · exact stackRead_set_other _ _ _ _ (by omega) hj0 (fun h => hj h.symm)
    · have hneg : j < 0 := by omega
      simp [stackRead, hneg]
  have key : ∀ b' : InterfaceBoard, b'.screenStack = b.screenStack →
      b'.screenIndex = b.screenIndex → b'.buildScreen = b.buildScreen →
      b'.trace = b.trace → b'.building = false →
      ∃ m, buildStart cfg env b' = some m ∧ m.screenIndex = b.screenIndex ∧
        current m = some top ∧
        stackRead m.screenStack (b.screenIndex - 1) = some b.buildScreen ∧
        (∀ j : Int, j ≠ b.screenIndex - 1 →
          stackRead m.screenStack j = stackRead b.screenStack j) ∧
        m.building = true ∧ m.trace = b.trace ++ [.reset b.buildScreen] := by
    intro b' hs hi hbs htr hb'
    have htop' : current b' = some top := by
      simp only [current, hs, hi]
      exact htop
    have hm := buildStart_behind cfg env b' top hb' htop' hw'
    rw [pushBehind_full cfg b' (by rw [hi]; omega) (by rw [hi]; omega)
      (by rw [hi, hs]; omega)] at hm
    refine ⟨_, hm, ?_, ?_, ?_, ?_, rfl, ?_⟩
    · simp [emit, hi]
    · simp only [current, Option.map_some', emit, hs, hi, hbs]
      rw [hread b.screenIndex (by omega)]
      exact htop
    · simp only [Option.map_some', emit, hs, hi, hbs]
      exact stackRead_set_same _ _ _ (by omega) (by omega)
    · intro j hj
      simp only [Option.map_some', emit, hs, hi, hbs]
      exact hread j hj
    · simp [emit, htr, hbs]
  rcases hhost with h | h | h
  · simp only [monitor, h]
    exact key b rfl rfl rfl rfl hb
  · simp only [monitor, h]
    exact key b rfl rfl rfl rfl hb
  · simp only [monitor, h]
    exact key { b with onboard_build := true } rfl rfl rfl rfl hb

/-- Witness for amended C20: a build starts behind the waiting top screen of the
full stack `fullBoard`. -/
theorem push_behind_full_overwrites_below_witness :
    ∃ m, monitor cfg4 waitingEnv fullBoard = some m ∧ m.screenIndex = fullBoard.screenIndex ∧
      current m = some 7 ∧
      stackRead m.screenStack (fullBoard.screenIndex - 1) = some fullBoard.buildScreen ∧
      (∀ j : Int, j ≠ fullBoard.screenIndex - 1 →
        stackRead m.screenStack j = stackRead fullBoard.screenStack j) ∧
      m.building = true ∧ m.trace = fullBoard.trace ++ [.reset fullBoard.buildScreen] :=
  push_behind_full_overwrites_below cfg4 waitingEnv fullBoard 7 (by decide) rfl rfl
    (by decide) (Or.inr (Or.inr rfl)) rfl (Or.inl rfl)

end MightyBoard
